import Mathlib

/-!
# ONLYOFFICE / Miro integration backend

A shallow embedding of the request handlers, the document-server client and the
router configuration of the backend, together with the properties the
specification states about them.

Conventions of the embedding:

* a Go `error` is a value of `GoError`; `errors.Is` walks the chain of wrapped
  errors;
* a collaborator reached through an interface (OAuth service, whiteboard client,
  settings service) is a field of the controller record; every call a handler
  makes is appended to the `calls` trace of its outcome, in program order;
* the settings store is an explicit state `σ` threaded through the handler;
* logger calls have no effect on the response or on any collaborator and are
  left out.
-/

namespace Miro

/-! ## Go errors -/

/-- A Go error value: a package-level sentinel (or an error of a collaborator,
known by its text), an error wrapping another one (`fmt.Errorf` with `%w`), or
an error formatted from a text and an integer (`fmt.Errorf` with `%d`). -/
inductive GoError where
  | sentinel (name : String)
  | wrap (context : String) (inner : GoError)
  | errorf (text : String) (value : Int)
  deriving DecidableEq, Repr

/-- The method `Error()`. -/
def GoError.Error : GoError → String
  | .sentinel name => name
  | .wrap context inner => context ++ ": " ++ inner.Error
  | .errorf text value => text ++ toString value

/-- The function `errors.Is(err, target)`: `err` or an error it wraps is `target`. -/
def errorsIs : GoError → GoError → Bool
  | .sentinel name, target => decide (GoError.sentinel name = target)
  | .errorf text value, target => decide (GoError.errorf text value = target)
  | .wrap context inner, target =>
    decide (GoError.wrap context inner = target) || errorsIs inner target

/-- Sentinel `oauth.ErrTokenMissing`. -/
def ErrTokenMissing : GoError := .sentinel "oauth.ErrTokenMissing"
/-- Sentinel `ErrMissingBoardParameter` of the settings controller. -/
def ErrMissingBoardParameter : GoError := .sentinel "settings.ErrMissingBoardParameter"
/-- Sentinel `ErrMissingOpenIdToken` of the settings controller. -/
def ErrMissingOpenIdToken : GoError := .sentinel "settings.ErrMissingOpenIdToken"
/-- Sentinel `ErrInvalidRequestBody` of the settings controller. -/
def ErrInvalidRequestBody : GoError := .sentinel "settings.ErrInvalidRequestBody"

/-! ## HTTP status codes (`net/http`) -/

def StatusOK : Nat := 200
def StatusFound : Nat := 302
def StatusBadRequest : Nat := 400
def StatusUnauthorized : Nat := 401
def StatusForbidden : Nat := 403
def StatusNotFound : Nat := 404
def StatusConflict : Nat := 409
def StatusTooManyRequests : Nat := 429
def StatusInternalServerError : Nat := 500

/-! ## `strings.ToLower` -/

/-- The function `unicode.ToLower`: a rune of the ASCII range is lowered inline
(`'A'..'Z'` move by `'a' - 'A'`), any other rune goes through the Unicode case
table, which is the parameter `table`. -/
def unicodeToLower (table : Char → Char) (r : Char) : Char :=
  if r.toNat ≤ 127 then
    if 65 ≤ r.toNat ∧ r.toNat ≤ 90 then Char.ofNat (r.toNat + 32) else r
  else table r

/-- The ASCII branch of `unicode.ToLower`. -/
def asciiToLower (r : Char) : Char :=
  if 65 ≤ r.toNat ∧ r.toNat ≤ 90 then Char.ofNat (r.toNat + 32) else r

/-- The function `strings.ToLower`: every rune mapped by `unicode.ToLower`. -/
def stringsToLower (table : Char → Char) (s : String) : String :=
  String.mk (s.data.map (unicodeToLower table))

/-- A case table that sends no rune above the ASCII range to one of the
letters of the word "owner" (true of the Unicode tables: the only runes above
ASCII with an ASCII lower case are U+0130 and U+212A, lowered to i and k). -/
def TableAvoidsOwnerLetters (table : Char → Char) : Prop :=
  ∀ r : Char, 127 < r.toNat → table r ∉ ['o', 'w', 'n', 'e', 'r']

/-- A case table with the two ASCII-valued entries of the Unicode tables and
the identity elsewhere. -/
def sampleTable (r : Char) : Char :=
  if r.toNat = 0x212A then 'k' else if r.toNat = 0x130 then 'i' else r

/-- Spelled o-w-n-e-r, each letter in either case. -/
def isOwnerIgnoringCase (role : String) : Bool :=
  match role.data with
  | [a, b, c, d, e] =>
    (a == 'o' || a == 'O') && (b == 'w' || b == 'W') && (c == 'n' || c == 'N') &&
      (d == 'e' || d == 'E') && (e == 'r' || e == 'R')
  | _ => false

/-! ## Settings controller (`pkg/controller/settings/controller.go`) -/

/-- Claims of the verified application token (`authentication.TokenClaims`). -/
structure TokenClaims where
  User : String
  Team : String
  deriving DecidableEq, Repr

/-- Body of a POST settings request. -/
structure persistSettingsRequest where
  BoardID : String
  Address : String
  Header : String
  Secret : String
  Demo : Bool
  deriving DecidableEq, Repr

/-- The OAuth record of a user (`miro.AuthenticationResponse`); the handlers
read its access token only. -/
structure AuthenticationResponse where
  AccessToken : String
  deriving DecidableEq, Repr

structure GetBoardMemberRequest where
  BoardID : String
  MemberID : String
  Token : String
  deriving DecidableEq, Repr

structure BoardMemberResponse where
  Role : String
  deriving DecidableEq, Repr

/-- Trial state of a team (`component.Demo`); `Started` is a nullable time. -/
structure Demo where
  TeamID : String
  Enabled : Bool
  Started : Option Int
  deriving DecidableEq, Repr

/-- Settings of a board (`component.Settings`). -/
structure Settings where
  Address : String
  Header : String
  Secret : String
  DemoDetached : Bool
  Demo : Demo
  deriving DecidableEq, Repr

/-- Functional options passed to `settingsService.Save`. -/
inductive SettingsOption where
  | WithAddress (address : String)
  | WithHeader (header : String)
  | WithSecret (secret : String)
  | WithDemo (demo : Bool)
  deriving DecidableEq, Repr

/-- A call made by a settings handler to one of its collaborators. -/
inductive Call where
  | oauthFind (team user : String)
  | getBoardMember (req : GetBoardMemberRequest)
  | settingsFind (team board : String)
  | settingsSave (team board : String) (opts : List SettingsOption)
  deriving DecidableEq, Repr

/-- The call reads or writes the settings store. -/
def Call.touchesSettings : Call → Bool
  | .settingsFind _ _ => true
  | .settingsSave _ _ _ => true
  | _ => false

/-- The call goes to the whiteboard API. -/
def Call.isGetBoardMember : Call → Bool
  | .getBoardMember _ => true
  | _ => false

/-- The call is `settingsService.Save`. -/
def Call.isSave : Call → Bool
  | .settingsSave _ _ _ => true
  | _ => false

/-- The collaborators of the controller. `σ` is the state of the settings
store; `settingsSave` returns the error of `Save` (if any) and the new store. -/
structure settingsController (σ : Type) where
  oauthFind : String → String → Except GoError AuthenticationResponse
  getBoardMember : GetBoardMemberRequest → Except GoError BoardMemberResponse
  settingsFind : σ → String → String → Except GoError Settings
  settingsSave : σ → String → String → List SettingsOption → Option GoError × σ

/-- What a handler reads of the `echo.Context`: the `bid` query parameter
(empty when absent), the value stored under `"user"` when it is a
`*TokenClaims`, and the JSON-decoded body (`none` when decoding fails). -/
structure Context where
  bid : String
  user : Option TokenClaims
  body : Option persistSettingsRequest
  deriving DecidableEq, Repr

/-- JSON payload written by `ctx.JSON`. -/
inductive Payload where
  | error (message : String)
  | settings (value : Settings)
  | null
  deriving DecidableEq, Repr

structure Response where
  status : Nat
  payload : Payload
  deriving DecidableEq, Repr

/-- Result of running a handler: the response written, the collaborator calls
made (in order) and the settings store afterwards. -/
structure Outcome (σ : Type) where
  response : Response
  calls : List Call
  store : σ

def validateRequest (ctx : Context) : Except GoError (String × TokenClaims) :=
  if ctx.bid = "" then .error ErrMissingBoardParameter
  else
    match ctx.user with
    | none => .error ErrMissingOpenIdToken
    | some token => .ok (ctx.bid, token)

def validatePersistRequest (ctx : Context) :
    Except GoError (persistSettingsRequest × TokenClaims) :=
  match ctx.body with
  | none => .error ErrInvalidRequestBody
  | some body =>
    if body.BoardID = "" then .error ErrMissingBoardParameter
    else
      match ctx.user with
      | none => .error ErrMissingOpenIdToken
      | some token => .ok (body, token)

def handleGet {σ : Type} (table : Char → Char) (c : settingsController σ) (store : σ)
    (ctx : Context) : Outcome σ :=
  match validateRequest ctx with
  | .error err => ⟨⟨StatusBadRequest, .error err.Error⟩, [], store⟩
  | .ok (bid, token) =>
    match c.oauthFind token.Team token.User with
    | .error err =>
      if errorsIs err ErrTokenMissing then
        ⟨⟨StatusUnauthorized, .error err.Error⟩, [.oauthFind token.Team token.User], store⟩
      else
        ⟨⟨StatusInternalServerError, .error err.Error⟩,
          [.oauthFind token.Team token.User], store⟩
    | .ok user =>
      let req : GetBoardMemberRequest :=
        { BoardID := bid, MemberID := token.User, Token := user.AccessToken }
      match c.getBoardMember req with
      | .error err =>
        ⟨⟨StatusInternalServerError, .error err.Error⟩,
          [.oauthFind token.Team token.User, .getBoardMember req], store⟩
      | .ok member =>
        if stringsToLower table member.Role ≠ "owner" then
          ⟨⟨StatusForbidden, .error "Only owners can access this endpoint"⟩,
            [.oauthFind token.Team token.User, .getBoardMember req], store⟩
        else
          match c.settingsFind store token.Team bid with
          | .error err =>
            ⟨⟨StatusBadRequest, .error err.Error⟩,
              [.oauthFind token.Team token.User, .getBoardMember req,
                .settingsFind token.Team bid], store⟩
          | .ok settings =>
            ⟨⟨StatusOK, .settings settings⟩,
              [.oauthFind token.Team token.User, .getBoardMember req,
                .settingsFind token.Team bid], store⟩

def handlePost {σ : Type} (table : Char → Char) (c : settingsController σ) (store : σ)
    (ctx : Context) : Outcome σ :=
  match validatePersistRequest ctx with
  | .error err => ⟨⟨StatusBadRequest, .error err.Error⟩, [], store⟩
  | .ok (body, token) =>
    match c.oauthFind token.Team token.User with
    | .error err =>
      if errorsIs err ErrTokenMissing then
        ⟨⟨StatusUnauthorized, .error err.Error⟩, [.oauthFind token.Team token.User], store⟩
      else
        ⟨⟨StatusInternalServerError, .error err.Error⟩,
          [.oauthFind token.Team token.User], store⟩
    | .ok user =>
      let req : GetBoardMemberRequest :=
        { BoardID := body.BoardID, MemberID := token.User, Token := user.AccessToken }
      match c.getBoardMember req with
      | .error err =>
        ⟨⟨StatusInternalServerError, .error err.Error⟩,
          [.oauthFind token.Team token.User, .getBoardMember req], store⟩
      | .ok member =>
        if stringsToLower table member.Role ≠ "owner" then
          ⟨⟨StatusForbidden, .error "Only owners can access this endpoint"⟩,
            [.oauthFind token.Team token.User, .getBoardMember req], store⟩
        else
          let opts : List SettingsOption :=
            [.WithAddress body.Address, .WithHeader body.Header, .WithSecret body.Secret,
              .WithDemo body.Demo]
          match c.settingsSave store token.Team body.BoardID opts with
          | (some err, store') =>
            ⟨⟨StatusInternalServerError, .error err.Error⟩,
              [.oauthFind token.Team token.User, .getBoardMember req,
                .settingsSave token.Team body.BoardID opts], store'⟩
          | (none, store') =>
            ⟨⟨StatusOK, .null⟩,
              [.oauthFind token.Team token.User, .getBoardMember req,
                .settingsSave token.Team body.BoardID opts], store'⟩

/-! ### A concrete deployment used to exercise the handlers -/

/-- A settings store as the list of saved records, newest first. -/
abbrev SampleStore : Type := List ((String × String) × List SettingsOption)

/-- Collaborators of a small deployment: user U1 of team T1 has an OAuth
record; U1 owns board B1 (role spelled "Owner") and is a plain member of B2;
any other membership lookup fails. -/
def sampleController : settingsController SampleStore where
  oauthFind team user :=
    if team = "T1" ∧ user = "U1" then .ok ⟨"access-1"⟩
    else if team = "T9" then .error (.sentinel "connection refused")
    else .error (.wrap "find" ErrTokenMissing)
  getBoardMember req :=
    if req.BoardID = "B1" then .ok ⟨"Owner"⟩
    else if req.BoardID = "B2" then .ok ⟨"member"⟩
    else .error (.sentinel "board member not found")
  settingsFind store team board :=
    match store.lookup (team, board) with
    | some _ => .ok ⟨"https://ds.example", "Authorization", "s3cr3t", false, ⟨"", false, none⟩⟩
    | none => .error (.sentinel "settings not found")
  settingsSave store team board opts :=
    if board = "B1" then (none, ((team, board), opts) :: store)
    else (some (.sentinel "write failed"), store)

def sampleClaims : TokenClaims := { User := "U1", Team := "T1" }

def sampleBody (board : String) : persistSettingsRequest :=
  { BoardID := board, Address := "https://ds.example", Header := "Authorization",
    Secret := "s3cr3t", Demo := false }

/-- A request of U1 about the given board. -/
def sampleContext (board : String) : Context :=
  { bid := board, user := some sampleClaims, body := some (sampleBody board) }

/-- A request of user U2 of team T1, who has no OAuth record. -/
def strangerContext (board : String) : Context :=
  { bid := board, user := some { User := "U2", Team := "T1" },
    body := some (sampleBody board) }


/-! ## Request preparation of the file controllers (`pkg/controller/file/operation.go`) -/

/-- Sentinel `base.ErrMissingAuthentication`. -/
def ErrMissingAuthentication : GoError := .sentinel "base.ErrMissingAuthentication"
/-- Sentinel `base.ErrSettingsNotConfigured`. -/
def ErrSettingsNotConfigured : GoError := .sentinel "base.ErrSettingsNotConfigured"

/-- Which reporter of the base controller was called. -/
inductive ReportLevel where
  | error
  | warning
  deriving DecidableEq, Repr

/-- A call `c.HandleError(ctx, err, status, message)` or
`c.HandleWarning(ctx, err, status, message)`: the base controller (declared
outside these sources) answers the request with `status`; the call is kept as
the record of its arguments. -/
structure Report where
  level : ReportLevel
  err : GoError
  status : Nat
  message : String
  deriving DecidableEq, Repr

/-- The methods of `base.BaseController` used by `PrepareRequest`. -/
structure BaseController where
  ExtractUserToken : Context → Except GoError TokenClaims
  GetQueryParam : Context → String → Except GoError String
  FetchAuthenticationWithSettings :
    String → String → String → Except GoError (Settings × AuthenticationResponse)

structure boardAuthenticationResponse where
  BoardID : String
  Authentication : AuthenticationResponse
  deriving DecidableEq, Repr

def PrepareRequest (ctx : Context) (c : BaseController) :
    Except Report boardAuthenticationResponse :=
  match c.ExtractUserToken ctx with
  | .error err =>
    .error ⟨.error, err, StatusForbidden, "failed to extract authentication parameters"⟩
  | .ok token =>
    match c.GetQueryParam ctx "bid" with
    | .error err => .error ⟨.error, err, StatusBadRequest, "board id parameter is missing"⟩
    | .ok bid =>
      match c.FetchAuthenticationWithSettings token.User token.Team bid with
      | .error err =>
        if errorsIs err ErrMissingAuthentication then
          .error ⟨.warning, err, StatusUnauthorized, "could not retrieve authentication"⟩
        else if errorsIs err ErrSettingsNotConfigured then
          .error ⟨.warning, err, StatusConflict,
            "could not retrieve document editor settigns"⟩
        else
          .error ⟨.error, err, StatusBadRequest, "could not retrieve required data"⟩
      | .ok (_, auth) => .ok { BoardID := bid, Authentication := auth }

/-- A base controller of the sample deployment: the token and the board come
from the context; U1 is connected, board B1 is configured, board B2 is not. -/
def sampleBase : BaseController where
  ExtractUserToken ctx :=
    match ctx.user with
    | some token => .ok token
    | none => .error (.sentinel "missing token")
  GetQueryParam ctx _ :=
    if ctx.bid = "" then .error (.sentinel "missing parameter") else .ok ctx.bid
  FetchAuthenticationWithSettings user _ bid :=
    if user ≠ "U1" then .error (.wrap "fetch" ErrMissingAuthentication)
    else if bid = "B1" then
      .ok (⟨"https://ds.example", "Authorization", "s3cr3t", false, ⟨"", false, none⟩⟩,
        ⟨"access-1"⟩)
    else if bid = "B2" then .error (.wrap "fetch" ErrSettingsNotConfigured)
    else .error (.sentinel "timeout")


/-! ## Error handler of the router (`initializer/router.go`) -/

/-- The type `echo.HTTPError`. -/
structure HTTPError where
  Code : Nat
  Message : String
  Internal : Option GoError
  deriving DecidableEq, Repr

/-- An error given to the HTTP error handler, by dynamic type: a
`*echo.HTTPError`, or an error of any other type (an error that merely wraps
an `HTTPError` is of another type). -/
inductive HandlerError where
  | http (he : HTTPError)
  | other (err : GoError)
  deriving DecidableEq, Repr

/-- What the error handler does to the response. -/
inductive ErrorHandling where
  | passedToDefault (err : HandlerError)
  | redirected (status : Nat) (location : String)
  | untouched
  deriving DecidableEq, Repr

/-- The method `c.Redirect(code, url)` of echo: it refuses a code outside
300..308 and otherwise writes the status with the `Location` header. -/
def echoRedirect (code : Nat) (url : String) : Option (Nat × String) :=
  if code < 300 ∨ code > 308 then none else some (code, url)

/-- The handler installed by `setupErrorHandler`; `committed` is
`c.Response().Committed`. -/
def HTTPErrorHandler (err : HandlerError) (committed : Bool) : ErrorHandling :=
  match err with
  | .other _ => .passedToDefault err
  | .http he =>
    if he.Code = StatusNotFound then
      if !committed then
        match echoRedirect StatusFound "https://miro.com" with
        | some (status, location) => .redirected status location
        | none => .untouched
      else .untouched
    else .passedToDefault err

/-- The method `DefaultHTTPErrorHandler` of echo, by the status it writes:
nothing on a response that is already committed; otherwise the code of an
`HTTPError` and 500 for an error of any other type. (echo takes the code of
the `Internal` error instead when that error is itself an `*echo.HTTPError`;
no value of `GoError` is one, an `HTTPError` being the `http` case of
`HandlerError`.) -/
def DefaultHTTPErrorHandler (err : HandlerError) (committed : Bool) : Option Nat :=
  if committed then none
  else
    match err with
    | .http he => some he.Code
    | .other _ => some StatusInternalServerError

/-- The status line an `ErrorHandling` puts on the wire; `committed` is
`c.Response().Committed` when the error handler was entered. -/
def ErrorHandling.writtenStatus (committed : Bool) : ErrorHandling → Option Nat
  | .passedToDefault err => DefaultHTTPErrorHandler err committed
  | .redirected status _ => some status
  | .untouched => none


/-! ## Document-server client (`pkg/client/docserver/client.go`) -/

/-- Sentinel `ErrTokenRequired` of the document-server client. -/
def ErrTokenRequired : GoError := .sentinel "docserver.ErrTokenRequired"

/-- Options of a call, after `DefaultClientOptions` and `ApplyOptions`. -/
structure ClientOptions where
  Header : String
  Token : String
  deriving DecidableEq, Repr

/-- An `http.Request` as far as the client sets it; `Header` maps a canonical
header name to its value. -/
structure Request where
  Method : String
  URL : String
  Body : Option String
  Header : List (String × String)
  deriving DecidableEq, Repr

structure HTTPResponse where
  StatusCode : Nat
  Body : String
  deriving DecidableEq, Repr

structure ConvertFileRequest where
  Token : String
  deriving DecidableEq, Repr

/-- The decoded answer of the converter; `Error` is its numeric error code. -/
structure FileConversionResponse where
  Error : Int
  FileURL : String
  deriving DecidableEq, Repr

/-- What the client takes from the standard library, the `common` package and
the network: `urlParse` and `newRequestError` give the error (if any) of
`url.Parse` and `http.NewRequestWithContext`, `canonicalKey` is
`textproto.CanonicalMIMEHeaderKey`, `Do` is the HTTP round trip through the
retrying transport, `decode` the JSON decoding of a response body. -/
structure DocServerEnv (β : Type) where
  urlParse : String → Option GoError
  Concat : List String → String
  GenerateRandomString : Nat → String
  jsonMarshal : β → Except GoError String
  newRequestError : String → String → Option GoError
  canonicalKey : String → String
  Do : Request → Except GoError HTTPResponse
  decode : String → Except GoError FileConversionResponse

/-- The method `http.Header.Set`: the value replaces what was under the
canonical form of the key. -/
def HeaderSet (canonicalKey : String → String) (h : List (String × String))
    (key value : String) : List (String × String) :=
  (canonicalKey key, value) :: h.filter (fun kv => kv.1 ≠ canonicalKey key)

/-- The method `http.Header.Get`: the value under the canonical form of the key,
the empty string when there is none. -/
def HeaderGet (canonicalKey : String → String) (h : List (String × String))
    (key : String) : String :=
  (h.lookup (canonicalKey key)).getD ""

/-- The call `strings.TrimRight(s, "/")`. -/
def trimRightSlashes (s : String) : String :=
  String.mk (s.data.reverse.dropWhile (fun ch => ch == '/')).reverse

def createRequest {β : Type} (env : DocServerEnv β) (method baseURL path : String)
    (body : Option β) (options : ClientOptions) : Except GoError Request :=
  let address := trimRightSlashes baseURL
  match env.urlParse address with
  | some err => .error (.wrap "malformed address" err)
  | none =>
    if options.Token = "" then .error ErrTokenRequired
    else
      let url := env.Concat [address, path, "?shardKey=", env.GenerateRandomString 8]
      let marshalled : Except GoError (Option String) :=
        match body with
        | none => .ok none
        | some value =>
          match env.jsonMarshal value with
          | .error err => .error (.wrap "failed to marshal request body" err)
          | .ok bytes => .ok (some bytes)
      match marshalled with
      | .error err => .error err
      | .ok reader =>
        match env.newRequestError method url with
        | some err => .error (.wrap "failed to create request" err)
        | none =>
          let h1 := HeaderSet env.canonicalKey [] "Content-Type" "application/json"
          let h2 := HeaderSet env.canonicalKey h1 "Accept" "application/json"
          let h3 :=
            if options.Header ≠ "" then
              HeaderSet env.canonicalKey h2 options.Header options.Token
            else h2
          .ok { Method := method, URL := url, Body := reader, Header := h3 }

def sendRequest {β : Type} (env : DocServerEnv β) (req : Request) :
    Except GoError FileConversionResponse :=
  match env.Do req with
  | .error err => .error err
  | .ok resp =>
    if resp.StatusCode ≠ StatusOK then
      .error (.errorf "unexpected status code: " resp.StatusCode)
    else
      match env.decode resp.Body with
      | .error err => .error (.wrap "failed to decode response" err)
      | .ok target => .ok target

def ConvertFile (env : DocServerEnv ConvertFileRequest) (base token : String)
    (options : ClientOptions) : Except GoError FileConversionResponse :=
  match createRequest env "POST" base "/converter" (some { Token := token }) options with
  | .error err => .error err
  | .ok req =>
    match sendRequest env req with
    | .error err => .error err
    | .ok response =>
      if response.Error ≠ 0 then .error (.errorf "failed to convert file: " response.Error)
      else .ok response

/-- A document server for the sample deployment: an address with a blank does
not parse; the converter answers the token "jwt-good" with a file and the token
"jwt-bad" with the error code -4. -/
def sampleDocEnv : DocServerEnv ConvertFileRequest where
  urlParse address :=
    if address.data.contains ' ' then some (.sentinel "invalid character in host name")
    else none
  Concat parts := String.join parts
  GenerateRandomString n := String.mk (List.replicate n 'x')
  jsonMarshal body := .ok body.Token
  newRequestError _ _ := none
  canonicalKey key := key
  Do req :=
    if req.Body = some "jwt-good" then .ok ⟨200, "converted"⟩
    else if req.Body = some "jwt-bad" then .ok ⟨200, "failed"⟩
    else .error (.sentinel "connection reset")
  decode body :=
    if body = "converted" then .ok ⟨0, "https://ds.example/cache/file.pdf"⟩
    else if body = "failed" then .ok ⟨-4, ""⟩
    else .error (.sentinel "unexpected end of JSON input")


/-! ## Global rate limiter (`setupGlobalMiddleware` in `initializer/router.go`) -/

/-- An inbound request as the rate limiter sees it: `RealIP` is the value of
`ctx.RealIP()`. -/
structure InboundRequest where
  RealIP : String
  Path : String
  deriving DecidableEq, Repr

/-- The value `echomiddleware.ErrRateLimitExceeded`. -/
def ErrRateLimitExceeded : HTTPError :=
  { Code := StatusTooManyRequests, Message := "rate limit exceeded", Internal := none }

/-- The type `echomiddleware.RateLimiterConfig`, with the `Allow` method of its
store over an explicit store state `σ`. -/
structure RateLimiterConfig (σ : Type) where
  Skipper : InboundRequest → Bool
  IdentifierExtractor : InboundRequest → Except GoError String
  ErrorHandler : InboundRequest → GoError → HTTPError
  DenyHandler : InboundRequest → String → Option GoError → HTTPError
  Allow : σ → String → (Bool × Option GoError) × σ

/-- What the rate limiter does with a request: hand it to the next handler, or
end it with `c.Error(he)`. -/
inductive Verdict where
  | next
  | failed (he : HTTPError)
  deriving DecidableEq, Repr

/-- The middleware `echomiddleware.RateLimiterWithConfig`. -/
def RateLimiterWithConfig {σ : Type} (config : RateLimiterConfig σ) (store : σ)
    (ctx : InboundRequest) : Verdict × σ :=
  if config.Skipper ctx then (.next, store)
  else
    match config.IdentifierExtractor ctx with
    | .error err => (.failed (config.ErrorHandler ctx err), store)
    | .ok identifier =>
      match config.Allow store identifier with
      | ((allow, err), store') =>
        if !allow then (.failed (config.DenyHandler ctx identifier err), store')
        else (.next, store')

/-- The configuration `setupGlobalMiddleware` gives to the rate limiter, over
the store it created. -/
def globalRateLimiterConfig {σ : Type} (allow : σ → String → (Bool × Option GoError) × σ) :
    RateLimiterConfig σ where
  Skipper _ := false
  IdentifierExtractor ctx := .ok ctx.RealIP
  ErrorHandler _ err :=
    { Code := ErrRateLimitExceeded.Code, Message := ErrRateLimitExceeded.Message,
      Internal := some err }
  DenyHandler _ _ err :=
    { Code := ErrRateLimitExceeded.Code, Message := ErrRateLimitExceeded.Message,
      Internal := err }
  Allow := allow

/-- The store after the rate limiter has seen the given requests, oldest first. -/
def storeAfter {σ : Type} (config : RateLimiterConfig σ) (store : σ)
    (seen : List InboundRequest) : σ :=
  seen.foldl (fun st ctx => (RateLimiterWithConfig config st ctx).2) store

/-- Modelled from the spec: the counter store behind the rate limiter
(`middleware.NewRedisStore`, which is not among the sources), within one
window: one counter per client identity, and at most `limit` requests of an
identity are allowed. -/
structure CounterStore where
  limit : Nat
  counts : String → Nat

/-- Modelled from the spec: the operation `Allow(client_identity) -> bool` of
the counter store. -/
def CounterStore.Allow (store : CounterStore) (identifier : String) :
    (Bool × Option GoError) × CounterStore :=
  if store.counts identifier < store.limit then
    ((true, none),
      { store with
        counts := Function.update store.counts identifier (store.counts identifier + 1) })
  else ((false, none), store)

/-- A counter store at the start of a window. -/
def CounterStore.fresh (limit : Nat) : CounterStore :=
  { limit := limit, counts := fun _ => 0 }

/-- The verdict on `ctx` when the requests `seen` came earlier in the window. -/
def verdictAfter (limit : Nat) (seen : List InboundRequest) (ctx : InboundRequest) :
    Verdict :=
  (RateLimiterWithConfig (globalRateLimiterConfig CounterStore.Allow)
    (storeAfter (globalRateLimiterConfig CounterStore.Allow) (CounterStore.fresh limit) seen)
    ctx).1


/-! ## Route setup (`SetupRoutes` in `initializer/router.go`) -/

/-- The global middleware `setupGlobalMiddleware` installs with `r.Echo.Use`. -/
inductive GlobalMiddleware where
  | cancellation
  | recover
  | cors
  | rateLimiter
  deriving DecidableEq, Repr

/-- The three authentication middleware made by `setupAuthMiddleware`: the
token strategy (`NewTokenAuthMiddleware`), the platform-session strategy
(`NewMiroAuthMiddleware`) and the editor strategy (`NewEditorAuthMiddleware`). -/
inductive AuthMiddleware where
  | token
  | miro
  | editor
  deriving DecidableEq, Repr

/-- The handlers the routes end in. -/
inductive RouteHandler where
  | editorGet
  | callbackPost
  | authGet
  | settingsGet
  | settingsPost
  | fileManagementGet
  | fileManagementPost
  | fileConversionGet
  | getCookieExpiration
  | health
  | filestore
  deriving DecidableEq, Repr

/-- A route as registered on the echo instance: the middleware listed wraps the
handler, outermost first. -/
structure Route where
  Method : String
  Path : String
  Middleware : List AuthMiddleware
  Handler : RouteHandler
  deriving DecidableEq, Repr

/-- A step of the start-up: a global `Use`, the installation of the error
handler, the registration of a route, or the exit of the process by
`log.Fatalf`. -/
inductive SetupEvent where
  | use (m : GlobalMiddleware)
  | errorHandler
  | add (route : Route)
  | fatal (message : String)
  deriving DecidableEq, Repr

/-- A start-up run: the steps taken so far, and whether the process is still
running (`log.Fatalf` ends it). -/
structure Startup where
  events : List SetupEvent
  running : Bool
  deriving DecidableEq, Repr

/-- One more step, taken only by a process that is still running. -/
def Startup.emit (s : Startup) (e : SetupEvent) : Startup :=
  if s.running then { s with events := s.events ++ [e] } else s

/-- The call `log.Fatalf`: the message is logged and the process exits. -/
def Startup.fatalf (s : Startup) (message : String) : Startup :=
  if s.running then { events := s.events ++ [.fatal message], running := false } else s

/-- A route group (`r.Echo.Group(prefix)`) with the middleware given to its
`Use`; in `setupProtectedRoutes` the group is the variable `protected`. -/
structure Group where
  Prefix : String
  Middleware : List AuthMiddleware
  deriving DecidableEq, Repr

/-- Registration through a group: the prefix goes before the path and the
middleware of the group wraps the handler. (The catch-all not-found routes echo
adds for the group itself are no routes of this file and are left out.) -/
def Group.add (g : Group) (s : Startup) (method path : String) (h : RouteHandler) :
    Startup :=
  s.emit (.add ⟨method, g.Prefix ++ path, g.Middleware, h⟩)

/-- The function `setupGlobalMiddleware`; `storeInit` is the error returned by
`middleware.NewRedisStore` (`none` when the store was created). -/
def setupGlobalMiddleware (storeInit : Option GoError) (s : Startup) : Startup :=
  let s := s.emit (.use .cancellation)
  let s := s.emit (.use .recover)
  let s := s.emit (.use .cors)
  match storeInit with
  | some err => s.fatalf ("failed to initialize Redis store: " ++ err.Error)
  | none => s.emit (.use .rateLimiter)

def setupErrorHandler (s : Startup) : Startup :=
  s.emit .errorHandler

def setupEditorRoutes (s : Startup) : Startup :=
  s.emit (.add ⟨"GET", "/api/editor", [.editor], .editorGet⟩)

def setupCallbackRoutes (s : Startup) : Startup :=
  s.emit (.add ⟨"POST", "/api/callback", [], .callbackPost⟩)

def setupAuthRoutes (s : Startup) : Startup :=
  s.emit (.add ⟨"GET", "/api/oauth", [], .authGet⟩)

def setupProtectedRoutes (s : Startup) : Startup :=
  let apiGroup : Group := { Prefix := "/api", Middleware := [.token] }
  let s := apiGroup.add s "GET" "/settings" .settingsGet
  let s := apiGroup.add s "POST" "/settings" .settingsPost
  let s := apiGroup.add s "GET" "/files" .fileManagementGet
  let s := apiGroup.add s "POST" "/files/create" .fileManagementPost
  apiGroup.add s "GET" "/files/convert" .fileConversionGet

def setupMiroAuthRoutes (s : Startup) : Startup :=
  s.emit (.add ⟨"GET", "/api/authorize", [.miro], .getCookieExpiration⟩)

def setupFileStoreRoutes (s : Startup) : Startup :=
  let s := s.emit (.add ⟨"GET", "/health", [], .health⟩)
  s.emit (.add ⟨"GET", "/filestore/*", [], .filestore⟩)

/-- The method `Router.SetupRoutes`, run from the start of the process. -/
def SetupRoutes (storeInit : Option GoError) : Startup :=
  let s : Startup := { events := [], running := true }
  let s := setupGlobalMiddleware storeInit s
  let s := setupErrorHandler s
  let s := setupEditorRoutes s
  let s := setupCallbackRoutes s
  let s := setupAuthRoutes s
  let s := setupProtectedRoutes s
  let s := setupMiroAuthRoutes s
  setupFileStoreRoutes s

/-- The route of a step, when the step registers one. -/
def SetupEvent.route? : SetupEvent → Option Route
  | .add route => some route
  | _ => none

/-- The route table a start-up run has built. -/
def Startup.routes (s : Startup) : List Route :=
  s.events.filterMap SetupEvent.route?

/-- The routes of the table registered for a method and a path. -/
def routesFor (table : List Route) (method path : String) : List Route :=
  table.filter (fun r => r.Method = method ∧ r.Path = path)


/-- Every route registration in the list comes after a `Use` of the rate
limiter; `seen` tells whether one came before the list. -/
def routesGuarded : Bool → List SetupEvent → Bool
  | _, [] => true
  | _, .use .rateLimiter :: rest => routesGuarded true rest
  | seen, .add _ :: rest => seen && routesGuarded seen rest
  | seen, _ :: rest => routesGuarded seen rest


/-- The call is made for the given team, member and board: every argument of
the call that names a team, a member or a board names that one. -/
def Call.keyedBy (team member board : String) : Call → Prop
  | .oauthFind t u => t = team ∧ u = member
  | .getBoardMember req => req.BoardID = board ∧ req.MemberID = member
  | .settingsFind t b => t = team ∧ b = board
  | .settingsSave t b _ => t = team ∧ b = board



/-! ## Settings processor (`pkg/service/processor/settings.go`) -/

/-- The type `core.SettingsCompositeKey`. -/
structure SettingsCompositeKey where
  TeamID : String
  BoardID : String
  deriving DecidableEq, Repr

/-- A positional argument of a query: a text, a boolean, or a nullable time. -/
inductive SqlArg where
  | text (value : String)
  | bool (value : Bool)
  | time (value : Option Int)
  deriving DecidableEq, Repr

/-- The six columns read by `row.Scan`; `enabled` and `started` come from the
left join and may be null. -/
structure SettingsRow where
  address : String
  header : String
  secret : String
  demoDetached : Bool
  enabled : Option Bool
  started : Option Int
  deriving DecidableEq, Repr

/-- A `pgx.Row`, by what its `Scan` gives: an error, or the columns. -/
abbrev Row : Type := Except GoError SettingsRow

/-- A run-time panic. -/
inductive Fault where
  | nilPointerDereference
  deriving DecidableEq, Repr

/-- The method `time.Time.IsZero`; a time is kept as its offset from the zero
instant of `time.Time`. -/
def timeIsZero (t : Int) : Bool :=
  decide (t = 0)

/-- The zero value `component.Demo{}`. -/
def zeroDemo : Demo :=
  { TeamID := "", Enabled := false, Started := none }

def settingsSelectQuery : String :=
  "SELECT s.address, s.header, s.secret, s.demo_detached,\n" ++
    "\td.enabled, d.started\n" ++
    "\tFROM settings s\n" ++
    "\tLEFT JOIN demos d ON s.team_id = d.team_id\n" ++
    "\tWHERE s.team_id = $1 AND s.board_id = $2;"

def settingsUpdateQuery : String :=
  "UPDATE settings\n" ++
    "SET address = $3,\n" ++
    "    header = $4,\n" ++
    "    secret = $5,\n" ++
    "    demo_detached = $6,\n" ++
    "    updated_at = CURRENT_TIMESTAMP\n" ++
    "WHERE team_id = $1 AND board_id = $2;"

def settingsDeleteQuery : String :=
  "DELETE FROM settings\n" ++
    "WHERE team_id = $1 AND board_id = $2;"

/-- The query text of `BuildInsertQuery` when `Demo.Enabled`. -/
def settingsInsertWithDemoQuery : String :=
  "\n" ++
    "            WITH settings_update AS (\n" ++
    "                INSERT INTO settings (team_id, board_id, address, header, secret, demo_detached)\n" ++
    "                VALUES ($1, $2, $3, $4, $5, $6)\n" ++
    "                ON CONFLICT (team_id, board_id) DO UPDATE\n" ++
    "                SET address = EXCLUDED.address,\n" ++
    "                    header = EXCLUDED.header,\n" ++
    "                    secret = EXCLUDED.secret,\n" ++
    "                    demo_detached = EXCLUDED.demo_detached,\n" ++
    "                    updated_at = CURRENT_TIMESTAMP\n" ++
    "                RETURNING team_id\n" ++
    "            )\n" ++
    "            INSERT INTO demos (team_id, enabled, started)\n" ++
    "            VALUES ($1, $7, $8)\n" ++
    "            ON CONFLICT (team_id) DO NOTHING\n" ++
    "            RETURNING team_id\n" ++
    "        "

/-- The query text of `BuildInsertQuery` without demo. -/
def settingsInsertQuery : String :=
  "\n" ++
    "        INSERT INTO settings (team_id, board_id, address, header, secret, demo_detached)\n" ++
    "        VALUES ($1, $2, $3, $4, $5, $6)\n" ++
    "        ON CONFLICT (team_id, board_id) DO UPDATE\n" ++
    "        SET address = EXCLUDED.address,\n" ++
    "            header = EXCLUDED.header,\n" ++
    "            secret = EXCLUDED.secret,\n" ++
    "            demo_detached = EXCLUDED.demo_detached,\n" ++
    "            updated_at = CURRENT_TIMESTAMP\n" ++
    "        RETURNING team_id\n" ++
    "    "

def settingsScanner (row : Row) : Except GoError Settings :=
  match row with
  | .error err => .error err
  | .ok cols =>
    let result : Settings :=
      { Address := cols.address, Header := cols.header, Secret := cols.secret,
        DemoDetached := cols.demoDetached, Demo := zeroDemo }
    match cols.enabled, cols.started with
    | some enabled, some started =>
      if !cols.demoDetached then
        .ok { result with Demo := { TeamID := "", Enabled := enabled, Started := some started } }
      else .ok result
    | _, _ => .ok result

def BuildSelectQuery (id : SettingsCompositeKey) :
    String × List SqlArg × (Row → Except GoError Settings) :=
  (settingsSelectQuery, [.text id.TeamID, .text id.BoardID], fun row =>
    match settingsScanner row with
    | .error err => .error err
    | .ok settings =>
      if settings.Demo ≠ zeroDemo then
        .ok { settings with Demo := { settings.Demo with TeamID := id.TeamID } }
      else .ok settings)

/-- The method `BuildInsertQuery`. With `Demo.Enabled` it calls
`settings.Demo.Started.IsZero()`, a method with a value receiver, through the
pointer `Started`: a nil pointer is dereferenced there. -/
def BuildInsertQuery (id : SettingsCompositeKey) (settings : Settings) :
    Except Fault (String × List SqlArg) :=
  if settings.Demo.Enabled then
    match settings.Demo.Started with
    | none => .error .nilPointerDereference
    | some t =>
      let started : Option Int := if !timeIsZero t then settings.Demo.Started else none
      .ok (settingsInsertWithDemoQuery,
        [.text id.TeamID, .text id.BoardID, .text settings.Address, .text settings.Header,
          .text settings.Secret, .bool settings.DemoDetached, .bool settings.Demo.Enabled,
          .time started])
  else
    .ok (settingsInsertQuery,
      [.text id.TeamID, .text id.BoardID, .text settings.Address, .text settings.Header,
        .text settings.Secret, .bool settings.DemoDetached])

def BuildUpdateQuery (id : SettingsCompositeKey) (settings : Settings) :
    String × List SqlArg :=
  (settingsUpdateQuery,
    [.text id.TeamID, .text id.BoardID, .text settings.Address, .text settings.Header,
      .text settings.Secret, .bool settings.DemoDetached])

def BuildDeleteQuery (id : SettingsCompositeKey) : String × List SqlArg :=
  (settingsDeleteQuery, [.text id.TeamID, .text id.BoardID])

/-- The numbers of the placeholders `$n` of a query text, in order of
appearance. -/
def placeholders : List Char → List Nat
  | [] => []
  | ch :: rest =>
    if ch = '$' ∧ (rest.takeWhile Char.isDigit) ≠ [] then
      (rest.takeWhile Char.isDigit).foldl (fun n d => 10 * n + (d.toNat - 48)) 0 ::
        placeholders rest
    else placeholders rest

/-- The number of distinct placeholders of a query text. -/
def distinctPlaceholders (query : String) : Nat :=
  (placeholders query.data).eraseDups.length


/-- Settings of board B1 of team T1 with the trial switched on and no start
time set. -/
def sampleDemoSettings : Settings :=
  { Address := "https://ds.example", Header := "Authorization", Secret := "s3cr3t",
    DemoDetached := false, Demo := { TeamID := "T1", Enabled := true, Started := none } }

/-- A settings row joined with the trial of its team, started at instant 1000. -/
def sampleRow : SettingsRow :=
  { address := "https://ds.example", header := "Authorization", secret := "s3cr3t",
    demoDetached := false, enabled := some true, started := some 1000 }


/-! ## Document formats (`pkg/service/document/format.go`) -/

/-- A Go map with string keys, by the value it holds under each key; a nil map
reads like the empty one. -/
structure GoMap (V : Type) where
  get : String → Option V

/-- The empty map (`make(map[string]V)`). -/
def GoMap.empty {V : Type} : GoMap V :=
  { get := fun _ => none }

/-- The assignment `m[key] = value`. -/
def GoMap.set {V : Type} (m : GoMap V) (key : String) (value : V) : GoMap V :=
  { get := fun k => if k = key then some value else m.get k }

structure Format where
  Name : String
  Type' : String
  Actions : GoMap String
  Convert : GoMap String
  Mime : List String

/-- An element of the embedded JSON list, as `json.Unmarshal` decodes it. -/
structure RawFormat where
  Name : String
  Type' : String
  Actions : List String
  Convert : List String
  Mime : List String
  deriving DecidableEq, Repr

def Format.IsViewable (f : Format) : Bool :=
  (f.Actions.get "view").isSome

/-- The zero value `Format{}`. -/
def zeroFormat : Format :=
  { Name := "", Type' := "", Actions := GoMap.empty, Convert := GoMap.empty, Mime := [] }

/-- The loops filling `actionsSet` and `convertSet`: each item is stored under
itself. -/
def toSet (items : List String) : GoMap String :=
  items.foldl (fun set item => set.set item item) GoMap.empty

/-- The format stored for a raw format. -/
def formatOf (rawFormat : RawFormat) : Format :=
  { Name := rawFormat.Name, Type' := rawFormat.Type', Actions := toSet rawFormat.Actions,
    Convert := toSet rawFormat.Convert, Mime := rawFormat.Mime }

/-- The body of the loop over `rawFormats`: a raw format without the action
"view" is skipped, any other is stored under its name. -/
def addRawFormat (formats : GoMap Format) (rawFormat : RawFormat) : GoMap Format :=
  if ((toSet rawFormat.Actions).get "view").isNone then formats
  else formats.set rawFormat.Name (formatOf rawFormat)

/-- The loop over `rawFormats`, from an empty map. -/
def loadFormats (rawFormats : List RawFormat) : GoMap Format :=
  rawFormats.foldl addRawFormat GoMap.empty

/-- The package variables `once` and `cache`; `cache` is `none` while the map
is nil. -/
structure PackageState where
  onceDone : Bool
  cache : Option (GoMap Format)

/-- The package variables when the program starts. -/
def PackageState.initial : PackageState :=
  { onceDone := false, cache := none }

structure MapFormatManager where
  formats : GoMap Format

/-- The function `NewMapFormatManager`; `unmarshal` is the result of
`json.Unmarshal` on the embedded data. It returns the manager, the error (if
any) and the package variables afterwards. -/
def NewMapFormatManager (unmarshal : Except GoError (List RawFormat)) (st : PackageState) :
    (MapFormatManager × Option GoError) × PackageState :=
  let st1 : PackageState :=
    if st.onceDone then st
    else
      match unmarshal with
      | .error _ => { onceDone := true, cache := st.cache }
      | .ok rawFormats => { onceDone := true, cache := some (loadFormats rawFormats) }
  match st1.cache with
  | none =>
    match unmarshal with
    | .error err => (({ formats := GoMap.empty }, some err), st1)
    | .ok rawFormats => (({ formats := loadFormats rawFormats }, none), st1)
  | some cache => (({ formats := cache }, none), st1)

/-- The package variables after `n` calls of `NewMapFormatManager`. -/
def stateAfterCalls (unmarshal : Except GoError (List RawFormat)) : Nat → PackageState
  | 0 => PackageState.initial
  | n + 1 => (NewMapFormatManager unmarshal (stateAfterCalls unmarshal n)).2

/-- The manager returned by the call that follows `n` earlier calls. -/
def managerAfterCalls (unmarshal : Except GoError (List RawFormat)) (n : Nat) :
    MapFormatManager :=
  (NewMapFormatManager unmarshal (stateAfterCalls unmarshal n)).1.1

def MapFormatManager.GetFormatByName (table : Char → Char) (m : MapFormatManager)
    (name : String) : Format × Bool :=
  match m.formats.get (stringsToLower table name) with
  | some format => (format, true)
  | none => (zeroFormat, false)

def MapFormatManager.GetAllFormats (m : MapFormatManager) : GoMap Format :=
  m.formats

/-- A case table under which lowering twice is lowering once (true of the
Unicode tables: a lower-case letter has no further lower case). -/
def TableIdempotent (table : Char → Char) : Prop :=
  ∀ r : Char, unicodeToLower table (unicodeToLower table r) = unicodeToLower table r

/-- A small format list: two viewable formats and one that cannot be viewed. -/
def sampleRawFormats : List RawFormat :=
  [⟨"docx", "word", ["view", "edit"], ["pdf"], ["application/msword"]⟩,
    ⟨"pdf", "pdf", ["view"], [], ["application/pdf"]⟩,
    ⟨"tmp", "word", ["edit"], [], []⟩]

/-- What holds of every entry of a format map built from `rawFormats`: it is
stored under its own name and is the format of a raw format that has the
action "view". -/
def FormatsSound (rawFormats : List RawFormat) (formats : GoMap Format) : Prop :=
  ∀ key format, formats.get key = some format →
    key = format.Name ∧
      ∃ rawFormat ∈ rawFormats, "view" ∈ rawFormat.Actions ∧ format = formatOf rawFormat

/-- The cache, when set, was built from the decoded embedded list. -/
def CacheSound (unmarshal : Except GoError (List RawFormat)) (st : PackageState) : Prop :=
  ∀ cache, st.cache = some cache →
    ∃ rawFormats, unmarshal = .ok rawFormats ∧ FormatsSound rawFormats cache

/-- A format list whose only name is in upper case. -/
def upperCaseRawFormats : List RawFormat :=
  [⟨"DOCX", "word", ["view", "edit"], [], []⟩]

/-! ## Theorems -/

theorem char_eq_of_toNat_eq {a b : Char} (h : a.toNat = b.toNat) : a = b := by
  rw [← Char.ofNat_toNat a, ← Char.ofNat_toNat b, h]

theorem unicodeToLower_of_ascii (table : Char → Char) (r : Char) (h : r.toNat ≤ 127) :
    unicodeToLower table r = asciiToLower r := by
  simp [unicodeToLower, asciiToLower, h]

theorem asciiToLower_eq_iff (r lo up : Char) (h : r.toNat ≤ 127)
    (hlo : lo ∈ ['o', 'w', 'n', 'e', 'r']) (hup : up.toNat + 32 = lo.toNat) :
    asciiToLower r = lo ↔ (r = lo ∨ r = up) := by
  have hr : r = Char.ofNat r.toNat := (Char.ofNat_toNat r).symm
  generalize r.toNat = n at h hr
  subst hr
  simp only [List.mem_cons, List.mem_singleton, List.not_mem_nil, or_false] at hlo
  rcases hlo with rfl | rfl | rfl | rfl | rfl
  · have hu : up = 'O' :=
      char_eq_of_toNat_eq (show up.toNat = 79 by
        have h2 : up.toNat + 32 = 111 := hup
        omega)
    subst hu
    interval_cases n <;> decide
  · have hu : up = 'W' :=
      char_eq_of_toNat_eq (show up.toNat = 87 by
        have h2 : up.toNat + 32 = 119 := hup
        omega)
    subst hu
    interval_cases n <;> decide
  · have hu : up = 'N' :=
      char_eq_of_toNat_eq (show up.toNat = 78 by
        have h2 : up.toNat + 32 = 110 := hup
        omega)
    subst hu
    interval_cases n <;> decide
  · have hu : up = 'E' :=
      char_eq_of_toNat_eq (show up.toNat = 69 by
        have h2 : up.toNat + 32 = 101 := hup
        omega)
    subst hu
    interval_cases n <;> decide
  · have hu : up = 'R' :=
      char_eq_of_toNat_eq (show up.toNat = 82 by
        have h2 : up.toNat + 32 = 114 := hup
        omega)
    subst hu
    interval_cases n <;> decide

theorem unicodeToLower_eq_iff (table : Char → Char) (h : TableAvoidsOwnerLetters table)
    (r lo up : Char) (hlo : lo ∈ ['o', 'w', 'n', 'e', 'r'])
    (hup : up.toNat + 32 = lo.toNat) :
    unicodeToLower table r = lo ↔ (r = lo ∨ r = up) := by
  by_cases hr : r.toNat ≤ 127
  · rw [unicodeToLower_of_ascii table r hr]
    exact asciiToLower_eq_iff r lo up hr hlo hup
  · have ht : unicodeToLower table r = table r := by simp [unicodeToLower, hr]
    have hlo127 : lo.toNat ≤ 127 := by
      simp only [List.mem_cons, List.mem_singleton, List.not_mem_nil, or_false] at hlo
      rcases hlo with rfl | rfl | rfl | rfl | rfl <;> decide
    rw [ht]
    constructor
    · intro e
      exact absurd hlo (e ▸ h r (by omega))
    · rintro (rfl | rfl)
      · exact absurd hlo127 hr
      · exact absurd (by omega : r.toNat ≤ 127) hr

/-- The comparison made by the handlers, `strings.ToLower(role) != "owner"`,
fails exactly on the spellings of "owner" in any mix of cases. -/
theorem stringsToLower_eq_owner_iff (table : Char → Char)
    (h : TableAvoidsOwnerLetters table) (role : String) :
    stringsToLower table role = "owner" ↔ isOwnerIgnoringCase role = true := by
  obtain ⟨l⟩ := role
  have ho := fun r => unicodeToLower_eq_iff table h r 'o' 'O' (by simp) rfl
  have hw := fun r => unicodeToLower_eq_iff table h r 'w' 'W' (by simp) rfl
  have hn := fun r => unicodeToLower_eq_iff table h r 'n' 'N' (by simp) rfl
  have he := fun r => unicodeToLower_eq_iff table h r 'e' 'E' (by simp) rfl
  have hr := fun r => unicodeToLower_eq_iff table h r 'r' 'R' (by simp) rfl
  have hd : ("owner" : String).data = ['o', 'w', 'n', 'e', 'r'] := rfl
  simp only [stringsToLower, isOwnerIgnoringCase, String.ext_iff, hd]
  rcases l with _ | ⟨a, _ | ⟨b, _ | ⟨c, _ | ⟨d, _ | ⟨e, _ | ⟨f, t⟩⟩⟩⟩⟩⟩ <;>
    simp [ho, hw, hn, he, hr, and_assoc]

theorem sampleTable_avoids : TableAvoidsOwnerLetters sampleTable := by
  intro r hr
  unfold sampleTable
  split
  · decide
  · split
    · decide
    · intro hmem
      have : r.toNat ≤ 127 := by
        simp only [List.mem_cons, List.mem_singleton, List.not_mem_nil, or_false] at hmem
        rcases hmem with rfl | rfl | rfl | rfl | rfl <;> decide
      omega

/-! ### The five paths through each settings handler -/

theorem handleGet_invalid {σ : Type} (table : Char → Char) (c : settingsController σ)
    (store : σ) (ctx : Context) (err : GoError) (hv : validateRequest ctx = .error err) :
    handleGet table c store ctx = ⟨⟨StatusBadRequest, .error err.Error⟩, [], store⟩ := by
  simp [handleGet, hv]

theorem handleGet_oauth_error {σ : Type} (table : Char → Char) (c : settingsController σ)
    (store : σ) (ctx : Context) (bid : String) (token : TokenClaims) (err : GoError)
    (hv : validateRequest ctx = .ok (bid, token))
    (ho : c.oauthFind token.Team token.User = .error err) :
    handleGet table c store ctx =
      ⟨⟨if errorsIs err ErrTokenMissing then StatusUnauthorized
          else StatusInternalServerError, .error err.Error⟩,
        [.oauthFind token.Team token.User], store⟩ := by
  simp only [handleGet, hv, ho]
  split <;> rfl

theorem handleGet_member_error {σ : Type} (table : Char → Char) (c : settingsController σ)
    (store : σ) (ctx : Context) (bid : String) (token : TokenClaims)
    (user : AuthenticationResponse) (err : GoError)
    (hv : validateRequest ctx = .ok (bid, token))
    (ho : c.oauthFind token.Team token.User = .ok user)
    (hm : c.getBoardMember ⟨bid, token.User, user.AccessToken⟩ = .error err) :
    handleGet table c store ctx =
      ⟨⟨StatusInternalServerError, .error err.Error⟩,
        [.oauthFind token.Team token.User,
          .getBoardMember ⟨bid, token.User, user.AccessToken⟩], store⟩ := by
  simp [handleGet, hv, ho, hm]

theorem handleGet_not_owner {σ : Type} (table : Char → Char) (c : settingsController σ)
    (store : σ) (ctx : Context) (bid : String) (token : TokenClaims)
    (user : AuthenticationResponse) (member : BoardMemberResponse)
    (hv : validateRequest ctx = .ok (bid, token))
    (ho : c.oauthFind token.Team token.User = .ok user)
    (hm : c.getBoardMember ⟨bid, token.User, user.AccessToken⟩ = .ok member)
    (hr : stringsToLower table member.Role ≠ "owner") :
    handleGet table c store ctx =
      ⟨⟨StatusForbidden, .error "Only owners can access this endpoint"⟩,
        [.oauthFind token.Team token.User,
          .getBoardMember ⟨bid, token.User, user.AccessToken⟩], store⟩ := by
  simp [handleGet, hv, ho, hm, hr]

theorem handleGet_owner {σ : Type} (table : Char → Char) (c : settingsController σ)
    (store : σ) (ctx : Context) (bid : String) (token : TokenClaims)
    (user : AuthenticationResponse) (member : BoardMemberResponse)
    (hv : validateRequest ctx = .ok (bid, token))
    (ho : c.oauthFind token.Team token.User = .ok user)
    (hm : c.getBoardMember ⟨bid, token.User, user.AccessToken⟩ = .ok member)
    (hr : stringsToLower table member.Role = "owner") :
    handleGet table c store ctx =
      ⟨match c.settingsFind store token.Team bid with
        | .error err => ⟨StatusBadRequest, .error err.Error⟩
        | .ok settings => ⟨StatusOK, .settings settings⟩,
        [.oauthFind token.Team token.User,
          .getBoardMember ⟨bid, token.User, user.AccessToken⟩,
          .settingsFind token.Team bid], store⟩ := by
  simp only [handleGet, hv, ho, hm, hr]
  cases c.settingsFind store token.Team bid <;> simp

theorem handlePost_invalid {σ : Type} (table : Char → Char) (c : settingsController σ)
    (store : σ) (ctx : Context) (err : GoError)
    (hv : validatePersistRequest ctx = .error err) :
    handlePost table c store ctx = ⟨⟨StatusBadRequest, .error err.Error⟩, [], store⟩ := by
  simp [handlePost, hv]

theorem handlePost_oauth_error {σ : Type} (table : Char → Char) (c : settingsController σ)
    (store : σ) (ctx : Context) (body : persistSettingsRequest) (token : TokenClaims)
    (err : GoError) (hv : validatePersistRequest ctx = .ok (body, token))
    (ho : c.oauthFind token.Team token.User = .error err) :
    handlePost table c store ctx =
      ⟨⟨if errorsIs err ErrTokenMissing then StatusUnauthorized
          else StatusInternalServerError, .error err.Error⟩,
        [.oauthFind token.Team token.User], store⟩ := by
  simp only [handlePost, hv, ho]
  split <;> rfl

theorem handlePost_member_error {σ : Type} (table : Char → Char) (c : settingsController σ)
    (store : σ) (ctx : Context) (body : persistSettingsRequest) (token : TokenClaims)
    (user : AuthenticationResponse) (err : GoError)
    (hv : validatePersistRequest ctx = .ok (body, token))
    (ho : c.oauthFind token.Team token.User = .ok user)
    (hm : c.getBoardMember ⟨body.BoardID, token.User, user.AccessToken⟩ = .error err) :
    handlePost table c store ctx =
      ⟨⟨StatusInternalServerError, .error err.Error⟩,
        [.oauthFind token.Team token.User,
          .getBoardMember ⟨body.BoardID, token.User, user.AccessToken⟩], store⟩ := by
  simp [handlePost, hv, ho, hm]

theorem handlePost_not_owner {σ : Type} (table : Char → Char) (c : settingsController σ)
    (store : σ) (ctx : Context) (body : persistSettingsRequest) (token : TokenClaims)
    (user : AuthenticationResponse) (member : BoardMemberResponse)
    (hv : validatePersistRequest ctx = .ok (body, token))
    (ho : c.oauthFind token.Team token.User = .ok user)
    (hm : c.getBoardMember ⟨body.BoardID, token.User, user.AccessToken⟩ = .ok member)
    (hr : stringsToLower table member.Role ≠ "owner") :
    handlePost table c store ctx =
      ⟨⟨StatusForbidden, .error "Only owners can access this endpoint"⟩,
        [.oauthFind token.Team token.User,
          .getBoardMember ⟨body.BoardID, token.User, user.AccessToken⟩], store⟩ := by
  simp [handlePost, hv, ho, hm, hr]

theorem handlePost_owner {σ : Type} (table : Char → Char) (c : settingsController σ)
    (store : σ) (ctx : Context) (body : persistSettingsRequest) (token : TokenClaims)
    (user : AuthenticationResponse) (member : BoardMemberResponse)
    (hv : validatePersistRequest ctx = .ok (body, token))
    (ho : c.oauthFind token.Team token.User = .ok user)
    (hm : c.getBoardMember ⟨body.BoardID, token.User, user.AccessToken⟩ = .ok member)
    (hr : stringsToLower table member.Role = "owner") :
    handlePost table c store ctx =
      ⟨match (c.settingsSave store token.Team body.BoardID
            [.WithAddress body.Address, .WithHeader body.Header, .WithSecret body.Secret,
              .WithDemo body.Demo]).1 with
        | some err => ⟨StatusInternalServerError, .error err.Error⟩
        | none => ⟨StatusOK, .null⟩,
        [.oauthFind token.Team token.User,
          .getBoardMember ⟨body.BoardID, token.User, user.AccessToken⟩,
          .settingsSave token.Team body.BoardID
            [.WithAddress body.Address, .WithHeader body.Header, .WithSecret body.Secret,
              .WithDemo body.Demo]],
        (c.settingsSave store token.Team body.BoardID
            [.WithAddress body.Address, .WithHeader body.Header, .WithSecret body.Secret,
              .WithDemo body.Demo]).2⟩ := by
  simp only [handlePost, hv, ho, hm, hr]
  rcases c.settingsSave store token.Team body.BoardID _ with ⟨_ | err, st⟩ <;> simp

theorem not_owner_of_isOwnerIgnoringCase_false (table : Char → Char)
    (hT : TableAvoidsOwnerLetters table) (role : String)
    (h : isOwnerIgnoringCase role = false) : stringsToLower table role ≠ "owner" := by
  intro e
  rw [(stringsToLower_eq_owner_iff table hT role).mp e] at h
  exact Bool.noConfusion h

/-! ### Owner gate of the settings handlers -/

/-- C1: in `handleGet` and in `handlePost`, once `GetBoardMember` has returned a
role, the handler answers 403 Forbidden exactly when the role is not "owner"
in some mix of upper and lower case, and it goes on to the settings store
exactly when the role is such a spelling. -/
theorem owner_check_case_insensitive {σ : Type} (table : Char → Char)
    (hT : TableAvoidsOwnerLetters table) (c : settingsController σ) (store : σ)
    (ctx : Context) :
    (∀ bid token user member,
        validateRequest ctx = .ok (bid, token) →
        c.oauthFind token.Team token.User = .ok user →
        c.getBoardMember ⟨bid, token.User, user.AccessToken⟩ = .ok member →
        ((handleGet table c store ctx).response.status = StatusForbidden ↔
            isOwnerIgnoringCase member.Role = false) ∧
          (handleGet table c store ctx).calls.any Call.touchesSettings =
            isOwnerIgnoringCase member.Role) ∧
    (∀ body token user member,
        validatePersistRequest ctx = .ok (body, token) →
        c.oauthFind token.Team token.User = .ok user →
        c.getBoardMember ⟨body.BoardID, token.User, user.AccessToken⟩ = .ok member →
        ((handlePost table c store ctx).response.status = StatusForbidden ↔
            isOwnerIgnoringCase member.Role = false) ∧
          (handlePost table c store ctx).calls.any Call.touchesSettings =
            isOwnerIgnoringCase member.Role) := by
  constructor
  · intro bid token user member hv ho hm
    have hiff := stringsToLower_eq_owner_iff table hT member.Role
    by_cases hrole : stringsToLower table member.Role = "owner"
    · have hb := hiff.mp hrole
      simp only [handleGet, hv, ho, hm, hrole, hb]
      cases c.settingsFind store token.Team bid <;>
        simp [StatusForbidden, StatusBadRequest, StatusOK, Call.touchesSettings]
    · have hb : isOwnerIgnoringCase member.Role = false := by
        cases hx : isOwnerIgnoringCase member.Role
        · rfl
        · exact absurd (hiff.mpr hx) hrole
      simp [handleGet, hv, ho, hm, hrole, hb, Call.touchesSettings]
  · intro body token user member hv ho hm
    have hiff := stringsToLower_eq_owner_iff table hT member.Role
    by_cases hrole : stringsToLower table member.Role = "owner"
    · have hb := hiff.mp hrole
      simp only [handlePost, hv, ho, hm, hrole, hb]
      rcases c.settingsSave store token.Team body.BoardID _ with ⟨_ | err, st⟩ <;>
        simp [StatusForbidden, StatusInternalServerError, StatusOK, Call.touchesSettings]
    · have hb : isOwnerIgnoringCase member.Role = false := by
        cases hx : isOwnerIgnoringCase member.Role
        · rfl
        · exact absurd (hiff.mpr hx) hrole
      simp [handlePost, hv, ho, hm, hrole, hb, Call.touchesSettings]

/-- Witness of C1: U1 reads and writes the settings of B1, where the platform
reports the role "Owner". -/
theorem owner_check_case_insensitive_witness :
    (((handleGet sampleTable sampleController [] (sampleContext "B1")).response.status
          = StatusForbidden ↔ isOwnerIgnoringCase "Owner" = false) ∧
        (handleGet sampleTable sampleController [] (sampleContext "B1")).calls.any
          Call.touchesSettings = isOwnerIgnoringCase "Owner") ∧
      (((handlePost sampleTable sampleController [] (sampleContext "B1")).response.status
          = StatusForbidden ↔ isOwnerIgnoringCase "Owner" = false) ∧
        (handlePost sampleTable sampleController [] (sampleContext "B1")).calls.any
          Call.touchesSettings = isOwnerIgnoringCase "Owner") :=
  ⟨(owner_check_case_insensitive sampleTable sampleTable_avoids sampleController []
      (sampleContext "B1")).1 "B1" sampleClaims ⟨"access-1"⟩ ⟨"Owner"⟩ rfl rfl rfl,
   (owner_check_case_insensitive sampleTable sampleTable_avoids sampleController []
      (sampleContext "B1")).2 (sampleBody "B1") sampleClaims ⟨"access-1"⟩ ⟨"Owner"⟩
      rfl rfl rfl⟩

/-- C2: a POST settings request with a decodable body naming a board, verified
token claims and an OAuth record on file, whose caller has on that board a role
other than "owner" (in any mix of cases), is answered with 403 Forbidden; the
handler has made the OAuth lookup and the membership lookup and nothing else,
so `settingsService.Save` is not called, and the settings store is left as it
was. -/
theorem handlePost_non_owner_not_persisted {σ : Type} (table : Char → Char)
    (hT : TableAvoidsOwnerLetters table) (c : settingsController σ) (store : σ)
    (ctx : Context) (body : persistSettingsRequest) (token : TokenClaims)
    (user : AuthenticationResponse) (member : BoardMemberResponse)
    (hbody : ctx.body = some body) (hboard : body.BoardID ≠ "")
    (htoken : ctx.user = some token)
    (ho : c.oauthFind token.Team token.User = .ok user)
    (hm : c.getBoardMember ⟨body.BoardID, token.User, user.AccessToken⟩ = .ok member)
    (hrole : isOwnerIgnoringCase member.Role = false) :
    (handlePost table c store ctx).response.status = StatusForbidden ∧
      (handlePost table c store ctx).calls =
        [.oauthFind token.Team token.User,
          .getBoardMember ⟨body.BoardID, token.User, user.AccessToken⟩] ∧
      (handlePost table c store ctx).calls.any Call.isSave = false ∧
      (handlePost table c store ctx).calls.any Call.touchesSettings = false ∧
      (handlePost table c store ctx).store = store := by
  have hv : validatePersistRequest ctx = .ok (body, token) := by
    simp [validatePersistRequest, hbody, hboard, htoken]
  have hr := not_owner_of_isOwnerIgnoringCase_false table hT member.Role hrole
  rw [handlePost_not_owner table c store ctx body token user member hv ho hm hr]
  simp [Call.isSave, Call.touchesSettings]

/-- Witness of C2: U1 posts settings for board B2, where U1 is a plain member. -/
theorem handlePost_non_owner_not_persisted_witness :
    (handlePost sampleTable sampleController [] (sampleContext "B2")).response.status
        = StatusForbidden ∧
      (handlePost sampleTable sampleController [] (sampleContext "B2")).calls =
        [.oauthFind "T1" "U1", .getBoardMember ⟨"B2", "U1", "access-1"⟩] ∧
      (handlePost sampleTable sampleController [] (sampleContext "B2")).calls.any
        Call.isSave = false ∧
      (handlePost sampleTable sampleController [] (sampleContext "B2")).calls.any
        Call.touchesSettings = false ∧
      (handlePost sampleTable sampleController [] (sampleContext "B2")).store = [] :=
  handlePost_non_owner_not_persisted sampleTable sampleTable_avoids sampleController []
    (sampleContext "B2") (sampleBody "B2") sampleClaims ⟨"access-1"⟩ ⟨"member"⟩
    rfl (by decide) rfl rfl rfl rfl

/-- C3: a POST settings request with a decodable body naming a board, verified
token claims, an OAuth record on file and an owner role calls
`settingsService.Save` exactly once, with the team of the token, the board of
the body and the address, header, secret and demo values of the body; the
answer is 200 when `Save` returns no error and 500 when it returns one, and the
store is the one `Save` left. -/
theorem handlePost_owner_saves_once {σ : Type} (table : Char → Char)
    (hT : TableAvoidsOwnerLetters table) (c : settingsController σ) (store : σ)
    (ctx : Context) (body : persistSettingsRequest) (token : TokenClaims)
    (user : AuthenticationResponse) (member : BoardMemberResponse)
    (hbody : ctx.body = some body) (hboard : body.BoardID ≠ "")
    (htoken : ctx.user = some token)
    (ho : c.oauthFind token.Team token.User = .ok user)
    (hm : c.getBoardMember ⟨body.BoardID, token.User, user.AccessToken⟩ = .ok member)
    (hrole : isOwnerIgnoringCase member.Role = true) :
    (handlePost table c store ctx).calls.filter Call.isSave =
        [.settingsSave token.Team body.BoardID
          [.WithAddress body.Address, .WithHeader body.Header, .WithSecret body.Secret,
            .WithDemo body.Demo]] ∧
      ((handlePost table c store ctx).response.status = StatusOK ↔
        (c.settingsSave store token.Team body.BoardID
          [.WithAddress body.Address, .WithHeader body.Header, .WithSecret body.Secret,
            .WithDemo body.Demo]).1 = none) ∧
      ((handlePost table c store ctx).response.status = StatusInternalServerError ↔
        (c.settingsSave store token.Team body.BoardID
          [.WithAddress body.Address, .WithHeader body.Header, .WithSecret body.Secret,
            .WithDemo body.Demo]).1 ≠ none) ∧
      (handlePost table c store ctx).store =
        (c.settingsSave store token.Team body.BoardID
          [.WithAddress body.Address, .WithHeader body.Header, .WithSecret body.Secret,
            .WithDemo body.Demo]).2 := by
  have hv : validatePersistRequest ctx = .ok (body, token) := by
    simp [validatePersistRequest, hbody, hboard, htoken]
  have hr := (stringsToLower_eq_owner_iff table hT member.Role).mpr hrole
  rw [handlePost_owner table c store ctx body token user member hv ho hm hr]
  rcases c.settingsSave store token.Team body.BoardID _ with ⟨_ | err, st⟩ <;>
    simp [Call.isSave, StatusOK, StatusInternalServerError]

/-- Witness of C3: U1, owner of B1, posts the settings of the scenario. -/
theorem handlePost_owner_saves_once_witness :
    (handlePost sampleTable sampleController [] (sampleContext "B1")).calls.filter
        Call.isSave =
        [.settingsSave "T1" "B1"
          [.WithAddress "https://ds.example", .WithHeader "Authorization",
            .WithSecret "s3cr3t", .WithDemo false]] ∧
      ((handlePost sampleTable sampleController [] (sampleContext "B1")).response.status
          = StatusOK ↔
        (sampleController.settingsSave [] "T1" "B1"
          [.WithAddress "https://ds.example", .WithHeader "Authorization",
            .WithSecret "s3cr3t", .WithDemo false]).1 = none) ∧
      ((handlePost sampleTable sampleController [] (sampleContext "B1")).response.status
          = StatusInternalServerError ↔
        (sampleController.settingsSave [] "T1" "B1"
          [.WithAddress "https://ds.example", .WithHeader "Authorization",
            .WithSecret "s3cr3t", .WithDemo false]).1 ≠ none) ∧
      (handlePost sampleTable sampleController [] (sampleContext "B1")).store =
        (sampleController.settingsSave [] "T1" "B1"
          [.WithAddress "https://ds.example", .WithHeader "Authorization",
            .WithSecret "s3cr3t", .WithDemo false]).2 :=
  handlePost_owner_saves_once sampleTable sampleTable_avoids sampleController []
    (sampleContext "B1") (sampleBody "B1") sampleClaims ⟨"access-1"⟩ ⟨"Owner"⟩
    rfl (by decide) rfl rfl rfl rfl

/-- C4: in `handleGet` and in `handlePost`, when the board-membership lookup made
by the handler fails, the answer is 500 Internal Server Error (so not 403
Forbidden), no call reaches the settings store and the store is unchanged. -/
theorem member_lookup_failure_is_500 {σ : Type} (table : Char → Char)
    (c : settingsController σ) (store : σ) (ctx : Context)
    (req : GetBoardMemberRequest) (err : GoError)
    (hres : c.getBoardMember req = .error err) :
    (Call.getBoardMember req ∈ (handleGet table c store ctx).calls →
        (handleGet table c store ctx).response.status = StatusInternalServerError ∧
        (handleGet table c store ctx).response.status ≠ StatusForbidden ∧
        (handleGet table c store ctx).calls.any Call.touchesSettings = false ∧
        (handleGet table c store ctx).store = store) ∧
    (Call.getBoardMember req ∈ (handlePost table c store ctx).calls →
        (handlePost table c store ctx).response.status = StatusInternalServerError ∧
        (handlePost table c store ctx).response.status ≠ StatusForbidden ∧
        (handlePost table c store ctx).calls.any Call.touchesSettings = false ∧
        (handlePost table c store ctx).store = store) := by
  constructor
  · intro hcall
    cases hv : validateRequest ctx with
    | error e =>
      rw [handleGet_invalid table c store ctx e hv] at hcall
      simp at hcall
    | ok p =>
      obtain ⟨bid, token⟩ := p
      cases ho : c.oauthFind token.Team token.User with
      | error e =>
        rw [handleGet_oauth_error table c store ctx bid token e hv ho] at hcall
        simp at hcall
      | ok user =>
        cases hm : c.getBoardMember ⟨bid, token.User, user.AccessToken⟩ with
        | error e =>
          rw [handleGet_member_error table c store ctx bid token user e hv ho hm]
          simp [Call.touchesSettings, StatusInternalServerError, StatusForbidden]
        | ok m =>
          exfalso
          by_cases hr : stringsToLower table m.Role = "owner"
          · rw [handleGet_owner table c store ctx bid token user m hv ho hm hr] at hcall
            simp only [List.mem_cons, List.mem_singleton, List.not_mem_nil, or_false,
              Call.getBoardMember.injEq, false_or, reduceCtorEq] at hcall
            rw [hcall, hm] at hres
            exact Except.noConfusion hres
          · rw [handleGet_not_owner table c store ctx bid token user m hv ho hm hr] at hcall
            simp only [List.mem_cons, List.mem_singleton, List.not_mem_nil, or_false,
              Call.getBoardMember.injEq, false_or, reduceCtorEq] at hcall
            rw [hcall, hm] at hres
            exact Except.noConfusion hres
  · intro hcall
    cases hv : validatePersistRequest ctx with
    | error e =>
      rw [handlePost_invalid table c store ctx e hv] at hcall
      simp at hcall
    | ok p =>
      obtain ⟨body, token⟩ := p
      cases ho : c.oauthFind token.Team token.User with
      | error e =>
        rw [handlePost_oauth_error table c store ctx body token e hv ho] at hcall
        simp at hcall
      | ok user =>
        cases hm : c.getBoardMember ⟨body.BoardID, token.User, user.AccessToken⟩ with
        | error e =>
          rw [handlePost_member_error table c store ctx body token user e hv ho hm]
          simp [Call.touchesSettings, StatusInternalServerError, StatusForbidden]
        | ok m =>
          exfalso
          by_cases hr : stringsToLower table m.Role = "owner"
          · rw [handlePost_owner table c store ctx body token user m hv ho hm hr] at hcall
            simp only [List.mem_cons, List.mem_singleton, List.not_mem_nil, or_false,
              Call.getBoardMember.injEq, false_or, reduceCtorEq] at hcall
            rw [hcall, hm] at hres
            exact Except.noConfusion hres
          · rw [handlePost_not_owner table c store ctx body token user m hv ho hm hr] at hcall
            simp only [List.mem_cons, List.mem_singleton, List.not_mem_nil, or_false,
              Call.getBoardMember.injEq, false_or, reduceCtorEq] at hcall
            rw [hcall, hm] at hres
            exact Except.noConfusion hres

/-- Witness of C4: U1 asks for board B3, on which the platform knows no
membership of U1. -/
theorem member_lookup_failure_is_500_witness :
    ((handleGet sampleTable sampleController [] (sampleContext "B3")).response.status
        = StatusInternalServerError ∧
      (handleGet sampleTable sampleController [] (sampleContext "B3")).response.status
        ≠ StatusForbidden ∧
      (handleGet sampleTable sampleController [] (sampleContext "B3")).calls.any
        Call.touchesSettings = false ∧
      (handleGet sampleTable sampleController [] (sampleContext "B3")).store = []) ∧
    ((handlePost sampleTable sampleController [] (sampleContext "B3")).response.status
        = StatusInternalServerError ∧
      (handlePost sampleTable sampleController [] (sampleContext "B3")).response.status
        ≠ StatusForbidden ∧
      (handlePost sampleTable sampleController [] (sampleContext "B3")).calls.any
        Call.touchesSettings = false ∧
      (handlePost sampleTable sampleController [] (sampleContext "B3")).store = []) :=
  ⟨(member_lookup_failure_is_500 sampleTable sampleController [] (sampleContext "B3")
      ⟨"B3", "U1", "access-1"⟩ (.sentinel "board member not found") rfl).1 (by decide),
   (member_lookup_failure_is_500 sampleTable sampleController [] (sampleContext "B3")
      ⟨"B3", "U1", "access-1"⟩ (.sentinel "board member not found") rfl).2 (by decide)⟩

/-- C5: in `handleGet` and in `handlePost`, when the `oauthService.Find` call made
by the handler fails, the answer is 401 Unauthorized if the error is or wraps
`ErrTokenMissing` and 500 otherwise; in both cases the handler calls neither
`GetBoardMember` nor the settings store, and the store is unchanged. -/
theorem oauth_failure_status {σ : Type} (table : Char → Char)
    (c : settingsController σ) (store : σ) (ctx : Context)
    (team user : String) (err : GoError)
    (hres : c.oauthFind team user = .error err) :
    (Call.oauthFind team user ∈ (handleGet table c store ctx).calls →
        (handleGet table c store ctx).response.status =
          (if errorsIs err ErrTokenMissing then StatusUnauthorized
            else StatusInternalServerError) ∧
        (handleGet table c store ctx).calls.any Call.isGetBoardMember = false ∧
        (handleGet table c store ctx).calls.any Call.touchesSettings = false ∧
        (handleGet table c store ctx).store = store) ∧
    (Call.oauthFind team user ∈ (handlePost table c store ctx).calls →
        (handlePost table c store ctx).response.status =
          (if errorsIs err ErrTokenMissing then StatusUnauthorized
            else StatusInternalServerError) ∧
        (handlePost table c store ctx).calls.any Call.isGetBoardMember = false ∧
        (handlePost table c store ctx).calls.any Call.touchesSettings = false ∧
        (handlePost table c store ctx).store = store) := by
  constructor
  · intro hcall
    cases hv : validateRequest ctx with
    | error e =>
      rw [handleGet_invalid table c store ctx e hv] at hcall
      simp at hcall
    | ok p =>
      obtain ⟨bid, token⟩ := p
      cases ho : c.oauthFind token.Team token.User with
      | error e =>
        rw [handleGet_oauth_error table c store ctx bid token e hv ho] at hcall ⊢
        simp only [List.mem_singleton, Call.oauthFind.injEq] at hcall
        rw [hcall.1, hcall.2, ho] at hres
        injection hres with he
        subst he
        simp [Call.touchesSettings, Call.isGetBoardMember]
      | ok u =>
        exfalso
        have hsame : team = token.Team ∧ user = token.User := by
          cases hm : c.getBoardMember ⟨bid, token.User, u.AccessToken⟩ with
          | error e =>
            rw [handleGet_member_error table c store ctx bid token u e hv ho hm] at hcall
            simpa using hcall
          | ok m =>
            by_cases hr : stringsToLower table m.Role = "owner"
            · rw [handleGet_owner table c store ctx bid token u m hv ho hm hr] at hcall
              simpa using hcall
            · rw [handleGet_not_owner table c store ctx bid token u m hv ho hm hr] at hcall
              simpa using hcall
        rw [hsame.1, hsame.2, ho] at hres
        exact Except.noConfusion hres
  · intro hcall
    cases hv : validatePersistRequest ctx with
    | error e =>
      rw [handlePost_invalid table c store ctx e hv] at hcall
      simp at hcall
    | ok p =>
      obtain ⟨body, token⟩ := p
      cases ho : c.oauthFind token.Team token.User with
      | error e =>
        rw [handlePost_oauth_error table c store ctx body token e hv ho] at hcall ⊢
        simp only [List.mem_singleton, Call.oauthFind.injEq] at hcall
        rw [hcall.1, hcall.2, ho] at hres
        injection hres with he
        subst he
        simp [Call.touchesSettings, Call.isGetBoardMember]
      | ok u =>
        exfalso
        have hsame : team = token.Team ∧ user = token.User := by
          cases hm : c.getBoardMember ⟨body.BoardID, token.User, u.AccessToken⟩ with
          | error e =>
            rw [handlePost_member_error table c store ctx body token u e hv ho hm] at hcall
            simpa using hcall
          | ok m =>
            by_cases hr : stringsToLower table m.Role = "owner"
            · rw [handlePost_owner table c store ctx body token u m hv ho hm hr] at hcall
              simpa using hcall
            · rw [handlePost_not_owner table c store ctx body token u m hv ho hm hr] at hcall
              simpa using hcall
        rw [hsame.1, hsame.2, ho] at hres
        exact Except.noConfusion hres

/-- Witness of C5: U2 has no OAuth record; the service reports an error that
wraps `ErrTokenMissing`, and both handlers answer 401. -/
theorem oauth_failure_status_witness :
    ((handleGet sampleTable sampleController [] (strangerContext "B1")).response.status
        = StatusUnauthorized ∧
      (handleGet sampleTable sampleController [] (strangerContext "B1")).calls.any
        Call.isGetBoardMember = false ∧
      (handleGet sampleTable sampleController [] (strangerContext "B1")).calls.any
        Call.touchesSettings = false ∧
      (handleGet sampleTable sampleController [] (strangerContext "B1")).store = []) ∧
    ((handlePost sampleTable sampleController [] (strangerContext "B1")).response.status
        = StatusUnauthorized ∧
      (handlePost sampleTable sampleController [] (strangerContext "B1")).calls.any
        Call.isGetBoardMember = false ∧
      (handlePost sampleTable sampleController [] (strangerContext "B1")).calls.any
        Call.touchesSettings = false ∧
      (handlePost sampleTable sampleController [] (strangerContext "B1")).store = []) :=
  ⟨(oauth_failure_status sampleTable sampleController [] (strangerContext "B1")
      "T1" "U2" (.wrap "find" ErrTokenMissing) rfl).1 (by decide),
   (oauth_failure_status sampleTable sampleController [] (strangerContext "B1")
      "T1" "U2" (.wrap "find" ErrTokenMissing) rfl).2 (by decide)⟩


/-! ### Request preparation -/

/-- C6: `PrepareRequest` answers a failure of `FetchAuthenticationWithSettings`
with one status: 401 when the error is or wraps `ErrMissingAuthentication`,
else 409 when it is or wraps `ErrSettingsNotConfigured`, else 400; and it
returns a board-authentication response only when the token, the board id and
the fetch all succeeded, the response then carrying that board id and the
fetched authentication. -/
theorem PrepareRequest_failure_status (ctx : Context) (c : BaseController) :
    (∀ token bid err,
        c.ExtractUserToken ctx = .ok token →
        c.GetQueryParam ctx "bid" = .ok bid →
        c.FetchAuthenticationWithSettings token.User token.Team bid = .error err →
        ∃ report, PrepareRequest ctx c = .error report ∧ report.err = err ∧
          report.status =
            (if errorsIs err ErrMissingAuthentication then StatusUnauthorized
              else if errorsIs err ErrSettingsNotConfigured then StatusConflict
              else StatusBadRequest)) ∧
    (∀ resp, PrepareRequest ctx c = .ok resp →
        ∃ token settings auth,
          c.ExtractUserToken ctx = .ok token ∧
          c.GetQueryParam ctx "bid" = .ok resp.BoardID ∧
          c.FetchAuthenticationWithSettings token.User token.Team resp.BoardID
            = .ok (settings, auth) ∧
          resp.Authentication = auth) := by
  constructor
  · intro token bid err ht hb hf
    simp only [PrepareRequest, ht, hb, hf]
    by_cases h1 : errorsIs err ErrMissingAuthentication = true
    · simp [h1]
    · by_cases h2 : errorsIs err ErrSettingsNotConfigured = true
      · simp [h1, h2]
      · simp [h1, h2]
  · intro resp hok
    unfold PrepareRequest at hok
    cases ht : c.ExtractUserToken ctx with
    | error e => simp [ht] at hok
    | ok token =>
      cases hb : c.GetQueryParam ctx "bid" with
      | error e => simp [ht, hb] at hok
      | ok bid =>
        cases hf : c.FetchAuthenticationWithSettings token.User token.Team bid with
        | error e =>
          simp only [ht, hb, hf] at hok
          split at hok
          · exact Except.noConfusion hok
          · split at hok <;> exact Except.noConfusion hok
        | ok p =>
          obtain ⟨settings, auth⟩ := p
          simp only [ht, hb, hf, Except.ok.injEq] at hok
          subst hok
          exact ⟨token, settings, auth, rfl, rfl, hf, rfl⟩

/-- Witness of C6: board B2 has no settings, so U1 is answered 409; U2 is not
connected and is answered 401; an unrelated failure is answered 400; on the
configured board B1 the response carries B1. -/
theorem PrepareRequest_failure_status_witness :
    (∃ report, PrepareRequest (sampleContext "B2") sampleBase = .error report ∧
        report.status = StatusConflict) ∧
      (∃ report, PrepareRequest (strangerContext "B2") sampleBase = .error report ∧
        report.status = StatusUnauthorized) ∧
      (∃ report, PrepareRequest (sampleContext "B3") sampleBase = .error report ∧
        report.status = StatusBadRequest) ∧
      (∃ resp, PrepareRequest (sampleContext "B1") sampleBase = .ok resp ∧
        resp.BoardID = "B1") :=
  ⟨((PrepareRequest_failure_status (sampleContext "B2") sampleBase).1 sampleClaims "B2"
      (.wrap "fetch" ErrSettingsNotConfigured) rfl rfl rfl).imp
      (fun _ h => ⟨h.1, h.2.2⟩),
   ((PrepareRequest_failure_status (strangerContext "B2") sampleBase).1 ⟨"U2", "T1"⟩ "B2"
      (.wrap "fetch" ErrMissingAuthentication) rfl rfl rfl).imp
      (fun _ h => ⟨h.1, h.2.2⟩),
   ((PrepareRequest_failure_status (sampleContext "B3") sampleBase).1 sampleClaims "B3"
      (.sentinel "timeout") rfl rfl rfl).imp
      (fun _ h => ⟨h.1, h.2.2⟩),
   ⟨⟨"B1", ⟨"access-1"⟩⟩, rfl, rfl⟩⟩


/-! ### Error handler -/

/-- C7: the custom HTTP error handler redirects with 302 to https://miro.com for
every `HTTPError` of code 404 whose response is not committed, writing 302 and
not 404; every error that is not an `HTTPError`, and every `HTTPError` of
another code, is handed unchanged to the default error handler. -/
theorem HTTPErrorHandler_redirects_404 :
    (∀ he : HTTPError, he.Code = 404 →
        HTTPErrorHandler (.http he) false = .redirected 302 "https://miro.com" ∧
        (HTTPErrorHandler (.http he) false).writtenStatus false ≠ some 404) ∧
    (∀ (err : GoError) (committed : Bool),
        HTTPErrorHandler (.other err) committed = .passedToDefault (.other err)) ∧
    (∀ (he : HTTPError) (committed : Bool), he.Code ≠ 404 →
        HTTPErrorHandler (.http he) committed = .passedToDefault (.http he)) := by
  refine ⟨?_, ?_, ?_⟩
  · intro he h
    simp [HTTPErrorHandler, h, StatusNotFound, StatusFound, echoRedirect,
      ErrorHandling.writtenStatus]
  · intro err committed
    rfl
  · intro he committed h
    simp [HTTPErrorHandler, h, StatusNotFound]

/-- Witness of C7: the error echo raises for an unmatched route. -/
theorem HTTPErrorHandler_redirects_404_witness :
    HTTPErrorHandler (.http ⟨404, "Not Found", none⟩) false
        = .redirected 302 "https://miro.com" ∧
      HTTPErrorHandler (.http ⟨429, "rate limit exceeded", none⟩) false
        = .passedToDefault (.http ⟨429, "rate limit exceeded", none⟩) :=
  ⟨(HTTPErrorHandler_redirects_404.1 ⟨404, "Not Found", none⟩ rfl).1,
   HTTPErrorHandler_redirects_404.2.2 ⟨429, "rate limit exceeded", none⟩ false (by decide)⟩


/-! ### Document-server client -/

/-- C8: `ConvertFile` returns a response only when the request was built, the
round trip succeeded with status 200, the body decoded and the decoded error
code is zero; for a decoded response with a nonzero error code it returns no
response and an error whose text ends with that code. -/
theorem ConvertFile_response_only_when_code_zero (env : DocServerEnv ConvertFileRequest)
    (base token : String) (options : ClientOptions) :
    (∀ resp, ConvertFile env base token options = .ok resp →
        ∃ req httpResp,
          createRequest env "POST" base "/converter" (some { Token := token }) options
            = .ok req ∧
          env.Do req = .ok httpResp ∧ httpResp.StatusCode = 200 ∧
          env.decode httpResp.Body = .ok resp ∧ resp.Error = 0) ∧
    (∀ req httpResp resp,
        createRequest env "POST" base "/converter" (some { Token := token }) options
          = .ok req →
        env.Do req = .ok httpResp → httpResp.StatusCode = 200 →
        env.decode httpResp.Body = .ok resp → resp.Error ≠ 0 →
        ConvertFile env base token options
            = .error (.errorf "failed to convert file: " resp.Error) ∧
          (GoError.errorf "failed to convert file: " resp.Error).Error
            = "failed to convert file: " ++ toString resp.Error) := by
  constructor
  · intro resp hok
    unfold ConvertFile at hok
    cases hc : createRequest env "POST" base "/converter" (some { Token := token }) options with
    | error e => simp [hc] at hok
    | ok req =>
      simp only [hc, sendRequest] at hok
      cases hd : env.Do req with
      | error e => simp [hd] at hok
      | ok httpResp =>
        simp only [hd] at hok
        by_cases hs : httpResp.StatusCode = StatusOK
        · simp only [hs, ne_eq, not_true_eq_false, ite_false] at hok
          cases hj : env.decode httpResp.Body with
          | error e => simp [hj] at hok
          | ok target =>
            simp only [hj] at hok
            by_cases hz : target.Error = 0
            · simp only [hz, ne_eq, not_true_eq_false, ite_false, Except.ok.injEq] at hok
              subst hok
              exact ⟨req, httpResp, rfl, hd, hs, hj, hz⟩
            · simp [hz] at hok
        · simp [hs] at hok
  · intro req httpResp resp hc hd hs hj hz
    refine ⟨?_, rfl⟩
    simp [ConvertFile, hc, sendRequest, hd, hs, StatusOK, hj, hz]

/-- Witness of C8: the converter answers the token "jwt-bad" with code -4. -/
theorem ConvertFile_response_only_when_code_zero_witness :
    ConvertFile sampleDocEnv "https://ds.example/" "jwt-bad" ⟨"Authorization", "s3cr3t"⟩
        = .error (.errorf "failed to convert file: " (-4)) ∧
      (GoError.errorf "failed to convert file: " (-4)).Error
        = "failed to convert file: " ++ toString (-4 : Int) :=
  (ConvertFile_response_only_when_code_zero sampleDocEnv "https://ds.example/" "jwt-bad"
      ⟨"Authorization", "s3cr3t"⟩).2
    ⟨"POST", "https://ds.example/converter?shardKey=xxxxxxxx", some "jwt-bad",
      [("Authorization", "s3cr3t"), ("Accept", "application/json"),
        ("Content-Type", "application/json")]⟩
    ⟨200, "failed"⟩ ⟨-4, ""⟩ rfl rfl rfl rfl (by decide)


theorem HeaderGet_HeaderSet (canonicalKey : String → String) (h : List (String × String))
    (key value : String) :
    HeaderGet canonicalKey (HeaderSet canonicalKey h key value) key = value := by
  simp [HeaderGet, HeaderSet, List.lookup]

/-- C9, as stated, fails: with an empty configured header name `createRequest`
builds a request in which no header carries the token; and with an empty token
and an address that does not parse it fails with the malformed-address error,
which is not `ErrTokenRequired`. -/
theorem createRequest_token_header_counterexample :
    (∃ req,
        createRequest sampleDocEnv "POST" "https://ds.example/" "/converter"
          (some { Token := "jwt-good" }) ⟨"", "s3cr3t"⟩ = .ok req ∧
        HeaderGet sampleDocEnv.canonicalKey req.Header "" ≠ "s3cr3t" ∧
        ∀ kv ∈ req.Header, kv.2 ≠ "s3cr3t") ∧
    (∃ err,
        createRequest sampleDocEnv "POST" "https://ds exa.mple" "/converter"
          (some { Token := "jwt-good" }) ⟨"Authorization", ""⟩ = .error err ∧
        errorsIs err ErrTokenRequired = false) :=
  ⟨⟨⟨"POST", "https://ds.example/converter?shardKey=xxxxxxxx", some "jwt-good",
        [("Accept", "application/json"), ("Content-Type", "application/json")]⟩,
      rfl, by decide, by decide⟩,
   ⟨.wrap "malformed address" (.sentinel "invalid character in host name"), rfl, rfl⟩⟩

/-- C9, amended: a request built by `createRequest` has a non-empty configured
token; when the configured header name is non-empty, the header of that name
carries the token, and when it is empty the request has the content-type and
accept headers only. With an empty token no request is built, and the failure
is `ErrTokenRequired` whenever the address parses. -/
theorem createRequest_token_header {β : Type} (env : DocServerEnv β)
    (method baseURL path : String) (body : Option β) (options : ClientOptions) :
    (∀ req, createRequest env method baseURL path body options = .ok req →
        options.Token ≠ "" ∧
        (options.Header ≠ "" →
          HeaderGet env.canonicalKey req.Header options.Header = options.Token) ∧
        (options.Header = "" →
          req.Header =
            HeaderSet env.canonicalKey
              (HeaderSet env.canonicalKey [] "Content-Type" "application/json")
              "Accept" "application/json")) ∧
    (options.Token = "" →
        (∀ req, createRequest env method baseURL path body options ≠ .ok req) ∧
        (env.urlParse (trimRightSlashes baseURL) = none →
          createRequest env method baseURL path body options = .error ErrTokenRequired)) := by
  have key : ∀ req, createRequest env method baseURL path body options = .ok req →
      options.Token ≠ "" ∧
      req.Header =
        (if options.Header ≠ "" then
          HeaderSet env.canonicalKey
            (HeaderSet env.canonicalKey
              (HeaderSet env.canonicalKey [] "Content-Type" "application/json")
              "Accept" "application/json") options.Header options.Token
        else
          HeaderSet env.canonicalKey
            (HeaderSet env.canonicalKey [] "Content-Type" "application/json")
            "Accept" "application/json") := by
    intro req hok
    unfold createRequest at hok
    cases hu : env.urlParse (trimRightSlashes baseURL) with
    | some e => simp [hu] at hok
    | none =>
      by_cases ht : options.Token = ""
      · simp [hu, ht] at hok
      · refine ⟨ht, ?_⟩
        simp only [hu, ht, ite_false] at hok
        cases body with
        | none =>
          simp only at hok
          cases hn : env.newRequestError method
              (env.Concat [trimRightSlashes baseURL, path, "?shardKey=",
                env.GenerateRandomString 8]) with
          | some e => simp [hn] at hok
          | none =>
            simp only [hn, Except.ok.injEq] at hok
            rw [← hok]
        | some value =>
          simp only at hok
          cases hj : env.jsonMarshal value with
          | error e => simp [hj] at hok
          | ok bytes =>
            simp only [hj] at hok
            cases hn : env.newRequestError method
                (env.Concat [trimRightSlashes baseURL, path, "?shardKey=",
                  env.GenerateRandomString 8]) with
            | some e => simp [hn] at hok
            | none =>
              simp only [hn, Except.ok.injEq] at hok
              rw [← hok]
  refine ⟨?_, ?_⟩
  · intro req hok
    obtain ⟨ht, hh⟩ := key req hok
    refine ⟨ht, ?_, ?_⟩
    · intro hne
      rw [hh, if_pos hne]
      exact HeaderGet_HeaderSet _ _ _ _
    · intro he
      rw [hh, if_neg (not_not.mpr he)]
  · intro ht
    refine ⟨fun req hok => (key req hok).1 ht, ?_⟩
    intro hu
    simp [createRequest, hu, ht]

/-- Witness of the amended C9: a request for the sample document server with
the header name "Authorization" carries the token under it. -/
theorem createRequest_token_header_witness :
    ∃ req,
      createRequest sampleDocEnv "POST" "https://ds.example/" "/converter"
        (some { Token := "jwt-good" }) ⟨"Authorization", "s3cr3t"⟩ = .ok req ∧
      HeaderGet sampleDocEnv.canonicalKey req.Header "Authorization" = "s3cr3t" :=
  ⟨_, rfl,
    ((createRequest_token_header sampleDocEnv "POST" "https://ds.example/" "/converter"
        (some { Token := "jwt-good" }) ⟨"Authorization", "s3cr3t"⟩).1 _ rfl).2.1
      (by decide)⟩


/-! ### Rate limiter -/

theorem rateLimiter_step_counts (store : CounterStore) (ctx : InboundRequest)
    (identifier : String) :
    (RateLimiterWithConfig (globalRateLimiterConfig CounterStore.Allow) store ctx).2.limit
        = store.limit ∧
      (RateLimiterWithConfig (globalRateLimiterConfig CounterStore.Allow) store ctx).2.counts
          identifier =
        (if ctx.RealIP = identifier ∧ store.counts identifier < store.limit then
          store.counts identifier + 1
        else store.counts identifier) := by
  simp only [RateLimiterWithConfig, globalRateLimiterConfig, CounterStore.Allow]
  by_cases hlt : store.counts ctx.RealIP < store.limit
  · by_cases hid : ctx.RealIP = identifier
    · subst hid
      simp [hlt]
    · have hid' : identifier ≠ ctx.RealIP := fun e => hid e.symm
      simp [hlt, hid, Function.update_noteq hid']
  · by_cases hid : ctx.RealIP = identifier
    · subst hid
      simp [hlt]
    · simp [hlt, hid]

theorem storeAfter_counts (seen : List InboundRequest) (store : CounterStore)
    (identifier : String) (hle : store.counts identifier ≤ store.limit) :
    (storeAfter (globalRateLimiterConfig CounterStore.Allow) store seen).limit = store.limit ∧
      (storeAfter (globalRateLimiterConfig CounterStore.Allow) store seen).counts identifier =
        min store.limit
          (store.counts identifier + seen.countP (fun r => r.RealIP = identifier)) := by
  induction seen generalizing store with
  | nil => simp [storeAfter, hle]
  | cons r rs ih =>
    have hstep := rateLimiter_step_counts store r identifier
    have hle' : (RateLimiterWithConfig (globalRateLimiterConfig CounterStore.Allow)
        store r).2.counts identifier ≤
        (RateLimiterWithConfig (globalRateLimiterConfig CounterStore.Allow)
          store r).2.limit := by
      rw [hstep.1, hstep.2]
      split <;> omega
    have h := ih _ hle'
    simp only [storeAfter, List.foldl_cons] at h ⊢
    rw [h.1, h.2, hstep.1, hstep.2]
    refine ⟨rfl, ?_⟩
    by_cases hid : r.RealIP = identifier
    · by_cases hlt : store.counts identifier < store.limit
      · simp only [hid, hlt, and_self, if_true, List.countP_cons_of_pos, decide_True]
        omega
      · simp only [hid, hlt, and_false, if_false, List.countP_cons_of_pos, decide_True]
        omega
    · simp only [hid, false_and, if_false, decide_False, Bool.false_eq_true,
        not_false_eq_true, List.countP_cons_of_neg]

theorem rateLimiter_step_verdict (store : CounterStore) (ctx : InboundRequest) :
    (RateLimiterWithConfig (globalRateLimiterConfig CounterStore.Allow) store ctx).1 =
      (if store.counts ctx.RealIP < store.limit then Verdict.next
        else Verdict.failed ⟨429, "rate limit exceeded", none⟩) := by
  simp only [RateLimiterWithConfig, globalRateLimiterConfig, CounterStore.Allow]
  by_cases hlt : store.counts ctx.RealIP < store.limit
  · simp [hlt]
  · simp [hlt, ErrRateLimitExceeded, StatusTooManyRequests]

theorem verdictAfter_eq (limit : Nat) (seen : List InboundRequest) (ctx : InboundRequest) :
    verdictAfter limit seen ctx =
      (if seen.countP (fun r => r.RealIP = ctx.RealIP) < limit then Verdict.next
        else Verdict.failed ⟨429, "rate limit exceeded", none⟩) := by
  have h := storeAfter_counts seen (CounterStore.fresh limit) ctx.RealIP
    (by simp [CounterStore.fresh])
  unfold verdictAfter
  rw [rateLimiter_step_verdict, h.1, h.2]
  simp only [CounterStore.fresh, Nat.zero_add]
  by_cases hlt : seen.countP (fun r => r.RealIP = ctx.RealIP) < limit
  · have : min limit (seen.countP (fun r => r.RealIP = ctx.RealIP)) < limit := by omega
    simp [hlt, this]
  · have : ¬ min limit (seen.countP (fun r => r.RealIP = ctx.RealIP)) < limit := by omega
    simp [hlt, this]


theorem countP_filter_other (seen : List InboundRequest) (identifier other : String)
    (h : other ≠ identifier) :
    (seen.filter (fun r => r.RealIP ≠ other)).countP (fun r => r.RealIP = identifier) =
      seen.countP (fun r => r.RealIP = identifier) := by
  induction seen with
  | nil => rfl
  | cons r rs ih =>
    simp only [decide_not] at ih ⊢
    have h' : ¬ identifier = other := fun e => h e.symm
    by_cases hid : r.RealIP = identifier
    · have hne : r.RealIP ≠ other := fun e => h (e ▸ hid)
      simp [List.filter_cons, hid, ih, h']
    · by_cases ho : r.RealIP = other
      · simp [List.filter_cons, ho, hid, ih, h]
      · simp [List.filter_cons, ho, hid, ih]

/-- C10: the global rate limiter asks the counter store about the real client
IP of the request; when the store denies it, the request ends with the error
429 (which the error handler hands to the default handler, writing 429) and the
next handler is not called; when the store allows it, the next handler is
called. With one counter per identity, the request that
follows `limit` requests of the same identity within the window is rejected,
one that follows fewer is passed on, and requests of another identity do not
change the verdict. -/
theorem rateLimiter_rejects_by_real_ip :
    (∀ (σ : Type) (allow : σ → String → (Bool × Option GoError) × σ) (store store' : σ)
        (ctx : InboundRequest) (err : Option GoError),
        allow store ctx.RealIP = ((false, err), store') →
        RateLimiterWithConfig (globalRateLimiterConfig allow) store ctx =
            (.failed ⟨429, "rate limit exceeded", err⟩, store') ∧
          (HTTPErrorHandler (.http ⟨429, "rate limit exceeded", err⟩) false).writtenStatus
            false = some 429) ∧
    (∀ (σ : Type) (allow : σ → String → (Bool × Option GoError) × σ) (store store' : σ)
        (ctx : InboundRequest) (err : Option GoError),
        allow store ctx.RealIP = ((true, err), store') →
        RateLimiterWithConfig (globalRateLimiterConfig allow) store ctx = (.next, store')) ∧
    (∀ (limit : Nat) (seen : List InboundRequest) (ctx : InboundRequest),
        limit ≤ seen.countP (fun r => r.RealIP = ctx.RealIP) →
        verdictAfter limit seen ctx = .failed ⟨429, "rate limit exceeded", none⟩) ∧
    (∀ (limit : Nat) (seen : List InboundRequest) (ctx : InboundRequest),
        seen.countP (fun r => r.RealIP = ctx.RealIP) < limit →
        verdictAfter limit seen ctx = .next) ∧
    (∀ (limit : Nat) (seen : List InboundRequest) (ctx : InboundRequest) (other : String),
        other ≠ ctx.RealIP →
        verdictAfter limit (seen.filter (fun r => r.RealIP ≠ other)) ctx =
          verdictAfter limit seen ctx) := by
  refine ⟨?_, ?_, ?_, ?_, ?_⟩
  · intro σ allow store store' ctx err h
    constructor
    · simp [RateLimiterWithConfig, globalRateLimiterConfig, h, ErrRateLimitExceeded,
        StatusTooManyRequests]
    · simp [HTTPErrorHandler, StatusNotFound, ErrorHandling.writtenStatus,
        DefaultHTTPErrorHandler]
  · intro σ allow store store' ctx err h
    simp [RateLimiterWithConfig, globalRateLimiterConfig, h]
  · intro limit seen ctx h
    rw [verdictAfter_eq, if_neg (by omega)]
  · intro limit seen ctx h
    rw [verdictAfter_eq, if_pos h]
  · intro limit seen ctx other h
    rw [verdictAfter_eq, verdictAfter_eq, countP_filter_other seen ctx.RealIP other h]

/-- Witness of C10: with a limit of two requests per window, the third request
of 10.0.0.1 is rejected with 429 although a request of 10.0.0.2 came in
between, and the first request of 10.0.0.2 after them is passed on. -/
theorem rateLimiter_rejects_by_real_ip_witness :
    verdictAfter 2
        [⟨"10.0.0.1", "/api/settings"⟩, ⟨"10.0.0.2", "/health"⟩, ⟨"10.0.0.1", "/api/editor"⟩]
        ⟨"10.0.0.1", "/api/settings"⟩
        = .failed ⟨429, "rate limit exceeded", none⟩ ∧
      verdictAfter 2
        [⟨"10.0.0.1", "/api/settings"⟩, ⟨"10.0.0.1", "/api/editor"⟩,
          ⟨"10.0.0.1", "/api/editor"⟩]
        ⟨"10.0.0.2", "/health"⟩
        = .next :=
  ⟨rateLimiter_rejects_by_real_ip.2.2.1 2
      [⟨"10.0.0.1", "/api/settings"⟩, ⟨"10.0.0.2", "/health"⟩, ⟨"10.0.0.1", "/api/editor"⟩]
      ⟨"10.0.0.1", "/api/settings"⟩ (by decide),
   rateLimiter_rejects_by_real_ip.2.2.2.1 2
      [⟨"10.0.0.1", "/api/settings"⟩, ⟨"10.0.0.1", "/api/editor"⟩,
        ⟨"10.0.0.1", "/api/editor"⟩]
      ⟨"10.0.0.2", "/health"⟩ (by decide)⟩


/-! ### Route setup -/

theorem SetupRoutes_store_failure (err : GoError) :
    SetupRoutes (some err) =
      { events := [.use .cancellation, .use .recover, .use .cors,
          .fatal ("failed to initialize Redis store: " ++ err.Error)],
        running := false } := by
  rfl

theorem SetupRoutes_store_ok :
    SetupRoutes none =
      { events := [.use .cancellation, .use .recover, .use .cors, .use .rateLimiter,
          .errorHandler,
          .add ⟨"GET", "/api/editor", [.editor], .editorGet⟩,
          .add ⟨"POST", "/api/callback", [], .callbackPost⟩,
          .add ⟨"GET", "/api/oauth", [], .authGet⟩,
          .add ⟨"GET", "/api/settings", [.token], .settingsGet⟩,
          .add ⟨"POST", "/api/settings", [.token], .settingsPost⟩,
          .add ⟨"GET", "/api/files", [.token], .fileManagementGet⟩,
          .add ⟨"POST", "/api/files/create", [.token], .fileManagementPost⟩,
          .add ⟨"GET", "/api/files/convert", [.token], .fileConversionGet⟩,
          .add ⟨"GET", "/api/authorize", [.miro], .getCookieExpiration⟩,
          .add ⟨"GET", "/health", [], .health⟩,
          .add ⟨"GET", "/filestore/*", [], .filestore⟩],
        running := true } := by
  decide


theorem routesGuarded_sound (events : List SetupEvent) (seen : Bool)
    (h : routesGuarded seen events = true) (pre : List SetupEvent) (route : Route)
    (post : List SetupEvent) (hsplit : events = pre ++ .add route :: post) :
    seen = true ∨ SetupEvent.use .rateLimiter ∈ pre := by
  induction events generalizing seen pre with
  | nil => cases pre <;> simp at hsplit
  | cons e rest ih =>
    cases pre with
    | nil =>
      simp only [List.nil_append, List.cons.injEq] at hsplit
      obtain ⟨rfl, -⟩ := hsplit
      simp only [routesGuarded, Bool.and_eq_true] at h
      exact Or.inl h.1
    | cons p pre' =>
      simp only [List.cons_append, List.cons.injEq] at hsplit
      obtain ⟨rfl, hrest⟩ := hsplit
      cases e with
      | use m =>
        cases m with
        | rateLimiter => exact Or.inr (List.mem_cons_self _ _)
        | cancellation | recover | cors =>
          simp only [routesGuarded] at h
          exact (ih seen h pre' hrest).imp id (List.mem_cons_of_mem _)
      | errorHandler =>
        simp only [routesGuarded] at h
        exact (ih seen h pre' hrest).imp id (List.mem_cons_of_mem _)
      | add r =>
        simp only [routesGuarded, Bool.and_eq_true] at h
        exact Or.inl h.1
      | fatal msg =>
        simp only [routesGuarded] at h
        exact (ih seen h pre' hrest).imp id (List.mem_cons_of_mem _)

/-- C11: when the rate-limit store cannot be initialised, `SetupRoutes` ends in
the fatal exit of `setupGlobalMiddleware`: the process is not running, the rate
limiter was not installed and no route was registered. And in every run of
`SetupRoutes`, whatever the store did, each route registration comes after the
installation of the rate limiter. -/
theorem SetupRoutes_no_route_without_rate_limiter (storeInit : Option GoError) :
    (∀ err, storeInit = some err →
        (SetupRoutes storeInit).running = false ∧
        (SetupRoutes storeInit).routes = [] ∧
        SetupEvent.use .rateLimiter ∉ (SetupRoutes storeInit).events ∧
        (SetupRoutes storeInit).events.getLast? =
          some (.fatal ("failed to initialize Redis store: " ++ err.Error))) ∧
    (∀ pre route post, (SetupRoutes storeInit).events = pre ++ .add route :: post →
        SetupEvent.use .rateLimiter ∈ pre) := by
  constructor
  · rintro err rfl
    rw [SetupRoutes_store_failure]
    simp [Startup.routes, SetupEvent.route?]
  · intro pre route post hsplit
    have hg : routesGuarded false (SetupRoutes storeInit).events = true := by
      cases storeInit with
      | none => rw [SetupRoutes_store_ok]; rfl
      | some err => rw [SetupRoutes_store_failure]; rfl
    rcases routesGuarded_sound _ false hg pre route post hsplit with h | h
    · exact Bool.noConfusion h
    · exact h

/-- Witness of C11: the store refuses the connection; and, with a store, the
registration of GET /api/editor comes after the rate limiter. -/
theorem SetupRoutes_no_route_without_rate_limiter_witness :
    ((SetupRoutes (some (.sentinel "connection refused"))).running = false ∧
      (SetupRoutes (some (.sentinel "connection refused"))).routes = [] ∧
      SetupEvent.use .rateLimiter ∉
        (SetupRoutes (some (.sentinel "connection refused"))).events ∧
      (SetupRoutes (some (.sentinel "connection refused"))).events.getLast? =
        some (.fatal ("failed to initialize Redis store: " ++
          (GoError.sentinel "connection refused").Error))) ∧
    SetupEvent.use .rateLimiter ∈
      [SetupEvent.use .cancellation, .use .recover, .use .cors, .use .rateLimiter,
        .errorHandler] :=
  ⟨(SetupRoutes_no_route_without_rate_limiter (some (.sentinel "connection refused"))).1
      (.sentinel "connection refused") rfl,
   (SetupRoutes_no_route_without_rate_limiter none).2
      [.use .cancellation, .use .recover, .use .cors, .use .rateLimiter, .errorHandler]
      ⟨"GET", "/api/editor", [.editor], .editorGet⟩
      [.add ⟨"POST", "/api/callback", [], .callbackPost⟩,
        .add ⟨"GET", "/api/oauth", [], .authGet⟩,
        .add ⟨"GET", "/api/settings", [.token], .settingsGet⟩,
        .add ⟨"POST", "/api/settings", [.token], .settingsPost⟩,
        .add ⟨"GET", "/api/files", [.token], .fileManagementGet⟩,
        .add ⟨"POST", "/api/files/create", [.token], .fileManagementPost⟩,
        .add ⟨"GET", "/api/files/convert", [.token], .fileConversionGet⟩,
        .add ⟨"GET", "/api/authorize", [.miro], .getCookieExpiration⟩,
        .add ⟨"GET", "/health", [], .health⟩,
        .add ⟨"GET", "/filestore/*", [], .filestore⟩]
      (by decide)⟩

/-- C12: in the route table `SetupRoutes` builds, the only route for GET
/api/settings and the only one for POST /api/settings are wrapped by the token
middleware, the only route for GET /api/editor by the editor middleware and the
only route for GET /api/authorize by the platform-session middleware, while the
routes for POST /api/callback, GET /api/oauth and GET /health are wrapped by no
authentication middleware. -/
theorem route_table_authentication :
    routesFor (SetupRoutes none).routes "GET" "/api/settings"
        = [⟨"GET", "/api/settings", [.token], .settingsGet⟩] ∧
      routesFor (SetupRoutes none).routes "POST" "/api/settings"
        = [⟨"POST", "/api/settings", [.token], .settingsPost⟩] ∧
      routesFor (SetupRoutes none).routes "GET" "/api/editor"
        = [⟨"GET", "/api/editor", [.editor], .editorGet⟩] ∧
      routesFor (SetupRoutes none).routes "GET" "/api/authorize"
        = [⟨"GET", "/api/authorize", [.miro], .getCookieExpiration⟩] ∧
      routesFor (SetupRoutes none).routes "POST" "/api/callback"
        = [⟨"POST", "/api/callback", [], .callbackPost⟩] ∧
      routesFor (SetupRoutes none).routes "GET" "/api/oauth"
        = [⟨"GET", "/api/oauth", [], .authGet⟩] ∧
      routesFor (SetupRoutes none).routes "GET" "/health"
        = [⟨"GET", "/health", [], .health⟩] := by
  decide


/-! ### Order and arguments of the calls of the settings handlers -/

theorem validateRequest_ok (ctx : Context) (bid : String) (token : TokenClaims)
    (h : validateRequest ctx = .ok (bid, token)) :
    ctx.bid ≠ "" ∧ bid = ctx.bid ∧ ctx.user = some token := by
  unfold validateRequest at h
  by_cases hb : ctx.bid = ""
  · simp [hb] at h
  · cases hu : ctx.user with
    | none => simp [hb, hu] at h
    | some t =>
      simp only [hb, hu, ite_false, Except.ok.injEq, Prod.mk.injEq] at h
      exact ⟨hb, h.1.symm, by rw [h.2]⟩

theorem validatePersistRequest_ok (ctx : Context) (body : persistSettingsRequest)
    (token : TokenClaims) (h : validatePersistRequest ctx = .ok (body, token)) :
    ctx.body = some body ∧ body.BoardID ≠ "" ∧ ctx.user = some token := by
  unfold validatePersistRequest at h
  cases hbody : ctx.body with
  | none => simp [hbody] at h
  | some b =>
    by_cases hb : b.BoardID = ""
    · simp [hbody, hb] at h
    · cases hu : ctx.user with
      | none => simp [hbody, hb, hu] at h
      | some t =>
        simp only [hbody, hb, hu, ite_false, Except.ok.injEq, Prod.mk.injEq] at h
        obtain ⟨rfl, rfl⟩ := h
        exact ⟨rfl, hb, rfl⟩

theorem handleGet_shape {σ : Type} (table : Char → Char) (c : settingsController σ)
    (store : σ) (ctx : Context) :
    (handleGet table c store ctx).calls = [] ∨
    ∃ token, ctx.user = some token ∧ ctx.bid ≠ "" ∧
      ((handleGet table c store ctx).calls = [.oauthFind token.Team token.User] ∨
        ∃ user, c.oauthFind token.Team token.User = .ok user ∧
          ((handleGet table c store ctx).calls =
              [.oauthFind token.Team token.User,
                .getBoardMember ⟨ctx.bid, token.User, user.AccessToken⟩] ∨
            ∃ member,
              c.getBoardMember ⟨ctx.bid, token.User, user.AccessToken⟩ = .ok member ∧
              stringsToLower table member.Role = "owner" ∧
              (handleGet table c store ctx).calls =
                [.oauthFind token.Team token.User,
                  .getBoardMember ⟨ctx.bid, token.User, user.AccessToken⟩,
                  .settingsFind token.Team ctx.bid])) := by
  cases hv : validateRequest ctx with
  | error e => exact Or.inl (by rw [handleGet_invalid table c store ctx e hv])
  | ok p =>
    obtain ⟨bid, token⟩ := p
    obtain ⟨hne, rfl, hu⟩ := validateRequest_ok ctx bid token hv
    refine Or.inr ⟨token, hu, hne, ?_⟩
    cases ho : c.oauthFind token.Team token.User with
    | error e => exact Or.inl (by rw [handleGet_oauth_error table c store ctx _ token e hv ho])
    | ok user =>
      refine Or.inr ⟨user, rfl, ?_⟩
      cases hm : c.getBoardMember ⟨ctx.bid, token.User, user.AccessToken⟩ with
      | error e =>
        exact Or.inl (by rw [handleGet_member_error table c store ctx _ token user e hv ho hm])
      | ok m =>
        by_cases hr : stringsToLower table m.Role = "owner"
        · exact Or.inr ⟨m, rfl, hr,
            by rw [handleGet_owner table c store ctx _ token user m hv ho hm hr]⟩
        · exact Or.inl
            (by rw [handleGet_not_owner table c store ctx _ token user m hv ho hm hr])

theorem handlePost_shape {σ : Type} (table : Char → Char) (c : settingsController σ)
    (store : σ) (ctx : Context) :
    (handlePost table c store ctx).calls = [] ∨
    ∃ token body, ctx.user = some token ∧ ctx.body = some body ∧ body.BoardID ≠ "" ∧
      ((handlePost table c store ctx).calls = [.oauthFind token.Team token.User] ∨
        ∃ user, c.oauthFind token.Team token.User = .ok user ∧
          ((handlePost table c store ctx).calls =
              [.oauthFind token.Team token.User,
                .getBoardMember ⟨body.BoardID, token.User, user.AccessToken⟩] ∨
            ∃ member,
              c.getBoardMember ⟨body.BoardID, token.User, user.AccessToken⟩ = .ok member ∧
              stringsToLower table member.Role = "owner" ∧
              (handlePost table c store ctx).calls =
                [.oauthFind token.Team token.User,
                  .getBoardMember ⟨body.BoardID, token.User, user.AccessToken⟩,
                  .settingsSave token.Team body.BoardID
                    [.WithAddress body.Address, .WithHeader body.Header,
                      .WithSecret body.Secret, .WithDemo body.Demo]])) := by
  cases hv : validatePersistRequest ctx with
  | error e => exact Or.inl (by rw [handlePost_invalid table c store ctx e hv])
  | ok p =>
    obtain ⟨body, token⟩ := p
    obtain ⟨hbody, hne, hu⟩ := validatePersistRequest_ok ctx body token hv
    refine Or.inr ⟨token, body, hu, hbody, hne, ?_⟩
    cases ho : c.oauthFind token.Team token.User with
    | error e =>
      exact Or.inl (by rw [handlePost_oauth_error table c store ctx body token e hv ho])
    | ok user =>
      refine Or.inr ⟨user, rfl, ?_⟩
      cases hm : c.getBoardMember ⟨body.BoardID, token.User, user.AccessToken⟩ with
      | error e =>
        exact Or.inl
          (by rw [handlePost_member_error table c store ctx body token user e hv ho hm])
      | ok m =>
        by_cases hr : stringsToLower table m.Role = "owner"
        · exact Or.inr ⟨m, rfl, hr,
            by rw [handlePost_owner table c store ctx body token user m hv ho hm hr]⟩
        · exact Or.inl
            (by rw [handlePost_not_owner table c store ctx body token user m hv ho hm hr])


theorem split_at_settings_call (a b c : Call) (pre : List Call) (call : Call)
    (post : List Call) (h : [a, b, c] = pre ++ call :: post)
    (ha : a.touchesSettings = false) (hb : b.touchesSettings = false)
    (hc : call.touchesSettings = true) :
    pre = [a, b] ∧ post = [] := by
  rcases pre with _ | ⟨x, _ | ⟨y, _ | ⟨z, t⟩⟩⟩
  · simp only [List.nil_append, List.cons.injEq] at h
    rw [← h.1, ha] at hc
    exact Bool.noConfusion hc
  · simp only [List.cons_append, List.nil_append, List.cons.injEq] at h
    rw [← h.2.1, hb] at hc
    exact Bool.noConfusion hc
  · simp only [List.cons_append, List.nil_append, List.cons.injEq] at h
    obtain ⟨rfl, rfl, -, hp⟩ := h
    exact ⟨rfl, hp.symm⟩
  · simp at h

/-- C13: in every execution of `handleGet` or `handlePost`, before any call that
reads or writes the settings store exactly one `GetBoardMember` call was made
in that execution, it returned a role that is "owner" in some mix of cases, and
no further `GetBoardMember` call follows: the role is looked up once per
request and the store is not reached before the lookup has returned. -/
theorem owner_check_precedes_settings_access {σ : Type} (table : Char → Char)
    (hT : TableAvoidsOwnerLetters table) (c : settingsController σ) (store : σ)
    (ctx : Context) :
    (∀ pre call post, (handleGet table c store ctx).calls = pre ++ call :: post →
        call.touchesSettings = true →
        ∃ req member,
          pre.filter Call.isGetBoardMember = [.getBoardMember req] ∧
          pre.any Call.touchesSettings = false ∧
          post.filter Call.isGetBoardMember = [] ∧
          c.getBoardMember req = .ok member ∧
          isOwnerIgnoringCase member.Role = true) ∧
    (∀ pre call post, (handlePost table c store ctx).calls = pre ++ call :: post →
        call.touchesSettings = true →
        ∃ req member,
          pre.filter Call.isGetBoardMember = [.getBoardMember req] ∧
          pre.any Call.touchesSettings = false ∧
          post.filter Call.isGetBoardMember = [] ∧
          c.getBoardMember req = .ok member ∧
          isOwnerIgnoringCase member.Role = true) := by
  constructor
  · intro pre call post hsplit hc
    have hmem : call ∈ (handleGet table c store ctx).calls := by
      rw [hsplit]; simp
    rcases handleGet_shape table c store ctx with h | ⟨token, -, -, h | ⟨user, -, h | h⟩⟩
    · rw [h] at hmem; simp at hmem
    · rw [h] at hmem
      simp only [List.mem_singleton] at hmem
      subst hmem
      exact Bool.noConfusion hc
    · rw [h] at hmem
      simp only [List.mem_cons, List.mem_singleton, List.not_mem_nil, or_false] at hmem
      rcases hmem with rfl | rfl <;> exact Bool.noConfusion hc
    · obtain ⟨member, hm, hr, hcalls⟩ := h
      rw [hcalls] at hsplit
      obtain ⟨rfl, rfl⟩ := split_at_settings_call _ _ _ pre call post hsplit rfl rfl hc
      exact ⟨_, member, rfl, rfl, rfl, hm, (stringsToLower_eq_owner_iff table hT _).mp hr⟩
  · intro pre call post hsplit hc
    have hmem : call ∈ (handlePost table c store ctx).calls := by
      rw [hsplit]; simp
    rcases handlePost_shape table c store ctx with
      h | ⟨token, body, -, -, -, h | ⟨user, -, h | h⟩⟩
    · rw [h] at hmem; simp at hmem
    · rw [h] at hmem
      simp only [List.mem_singleton] at hmem
      subst hmem
      exact Bool.noConfusion hc
    · rw [h] at hmem
      simp only [List.mem_cons, List.mem_singleton, List.not_mem_nil, or_false] at hmem
      rcases hmem with rfl | rfl <;> exact Bool.noConfusion hc
    · obtain ⟨member, hm, hr, hcalls⟩ := h
      rw [hcalls] at hsplit
      obtain ⟨rfl, rfl⟩ := split_at_settings_call _ _ _ pre call post hsplit rfl rfl hc
      exact ⟨_, member, rfl, rfl, rfl, hm, (stringsToLower_eq_owner_iff table hT _).mp hr⟩

/-- Witness of C13: U1 saves the settings of board B1; the `Save` call is the
third call of the execution and the one membership lookup is before it. -/
theorem owner_check_precedes_settings_access_witness :
    ∃ req member,
      [Call.oauthFind "T1" "U1", .getBoardMember ⟨"B1", "U1", "access-1"⟩].filter
          Call.isGetBoardMember = [.getBoardMember req] ∧
        [Call.oauthFind "T1" "U1", .getBoardMember ⟨"B1", "U1", "access-1"⟩].any
          Call.touchesSettings = false ∧
        ([] : List Call).filter Call.isGetBoardMember = [] ∧
        sampleController.getBoardMember req = .ok member ∧
        isOwnerIgnoringCase member.Role = true :=
  (owner_check_precedes_settings_access sampleTable sampleTable_avoids sampleController []
      (sampleContext "B1")).2
    [.oauthFind "T1" "U1", .getBoardMember ⟨"B1", "U1", "access-1"⟩]
    (.settingsSave "T1" "B1"
      [.WithAddress "https://ds.example", .WithHeader "Authorization",
        .WithSecret "s3cr3t", .WithDemo false])
    [] (by decide) rfl

/-- C16: every call `handleGet` makes is made for the team and the user of the
verified token claims and for the board of the `bid` query parameter, and every
call `handlePost` makes is made for the team and the user of the token claims
and for the board of the body: the membership lookup and the settings access
name the same board, and team and member never come from the body or the
query. -/
theorem settings_calls_keyed_by_token_and_board {σ : Type} (table : Char → Char)
    (c : settingsController σ) (store : σ) (ctx : Context) :
    (∀ call ∈ (handleGet table c store ctx).calls,
        ∃ token, ctx.user = some token ∧
          call.keyedBy token.Team token.User ctx.bid) ∧
    (∀ call ∈ (handlePost table c store ctx).calls,
        ∃ token body, ctx.user = some token ∧ ctx.body = some body ∧
          call.keyedBy token.Team token.User body.BoardID) := by
  constructor
  · intro call hmem
    rcases handleGet_shape table c store ctx with
      h | ⟨token, hu, -, h | ⟨user, -, h | ⟨member, -, -, h⟩⟩⟩
    · rw [h] at hmem; simp at hmem
    all_goals
      rw [h] at hmem
      simp only [List.mem_cons, List.mem_singleton, List.not_mem_nil, or_false] at hmem
      refine ⟨token, hu, ?_⟩
      rcases hmem with rfl | rfl | rfl <;> exact ⟨rfl, rfl⟩
  · intro call hmem
    rcases handlePost_shape table c store ctx with
      h | ⟨token, body, hu, hb, -, h | ⟨user, -, h | ⟨member, -, -, h⟩⟩⟩
    · rw [h] at hmem; simp at hmem
    all_goals
      rw [h] at hmem
      simp only [List.mem_cons, List.mem_singleton, List.not_mem_nil, or_false] at hmem
      refine ⟨token, body, hu, hb, ?_⟩
      rcases hmem with rfl | rfl | rfl <;> exact ⟨rfl, rfl⟩

/-- Witness of C16: the three calls of U1 saving the settings of B1. -/
theorem settings_calls_keyed_by_token_and_board_witness :
    ∃ token body, (sampleContext "B1").user = some token ∧
      (sampleContext "B1").body = some body ∧
      (Call.settingsSave "T1" "B1"
        [.WithAddress "https://ds.example", .WithHeader "Authorization",
          .WithSecret "s3cr3t", .WithDemo false]).keyedBy token.Team token.User
        body.BoardID :=
  (settings_calls_keyed_by_token_and_board sampleTable sampleController []
      (sampleContext "B1")).2 _ (by decide)


/-! ### Settings processor -/

theorem placeholders_select : placeholders settingsSelectQuery.data = [1, 2] := by
  decide

theorem placeholders_delete : placeholders settingsDeleteQuery.data = [1, 2] := by
  decide

theorem placeholders_update : placeholders settingsUpdateQuery.data = [3, 4, 5, 6, 1, 2] := by
  decide

set_option maxRecDepth 100000 in
theorem placeholders_insert : placeholders settingsInsertQuery.data = [1, 2, 3, 4, 5, 6] := by
  decide

set_option maxRecDepth 100000 in
theorem placeholders_insert_with_demo :
    placeholders settingsInsertWithDemoQuery.data = [1, 2, 3, 4, 5, 6, 1, 7, 8] := by
  decide


/-- C14: the arguments of every query the settings processor builds start with
`id.TeamID` and `id.BoardID`, and there are as many arguments as the query text
has distinct placeholders: 2 for select and delete, 6 for update and for insert
without demo, 8 for insert with `Demo.Enabled`; in update and insert the
arguments 3 to 6 are address, header, secret and demo_detached. -/
theorem queries_keyed_by_composite (id : SettingsCompositeKey) (settings : Settings) :
    ((BuildSelectQuery id).2.1 = [.text id.TeamID, .text id.BoardID] ∧
      (BuildSelectQuery id).2.1.length = distinctPlaceholders (BuildSelectQuery id).1 ∧
      (BuildSelectQuery id).2.1.length = 2) ∧
    ((BuildDeleteQuery id).2 = [.text id.TeamID, .text id.BoardID] ∧
      (BuildDeleteQuery id).2.length = distinctPlaceholders (BuildDeleteQuery id).1 ∧
      (BuildDeleteQuery id).2.length = 2) ∧
    ((BuildUpdateQuery id settings).2 =
        [.text id.TeamID, .text id.BoardID, .text settings.Address, .text settings.Header,
          .text settings.Secret, .bool settings.DemoDetached] ∧
      (BuildUpdateQuery id settings).2.length =
        distinctPlaceholders (BuildUpdateQuery id settings).1 ∧
      (BuildUpdateQuery id settings).2.length = 6) ∧
    (∀ query args, BuildInsertQuery id settings = .ok (query, args) →
      args.take 6 =
        [.text id.TeamID, .text id.BoardID, .text settings.Address, .text settings.Header,
          .text settings.Secret, .bool settings.DemoDetached] ∧
      args.length = distinctPlaceholders query ∧
      args.length = (if settings.Demo.Enabled then 8 else 6)) := by
  have hsel : distinctPlaceholders settingsSelectQuery = 2 := by
    unfold distinctPlaceholders; rw [placeholders_select]; rfl
  have hdel : distinctPlaceholders settingsDeleteQuery = 2 := by
    unfold distinctPlaceholders; rw [placeholders_delete]; rfl
  have hupd : distinctPlaceholders settingsUpdateQuery = 6 := by
    unfold distinctPlaceholders; rw [placeholders_update]; rfl
  have hins : distinctPlaceholders settingsInsertQuery = 6 := by
    unfold distinctPlaceholders; rw [placeholders_insert]; rfl
  have hdemo : distinctPlaceholders settingsInsertWithDemoQuery = 8 := by
    unfold distinctPlaceholders; rw [placeholders_insert_with_demo]; rfl
  refine ⟨⟨rfl, ?_, rfl⟩, ⟨rfl, ?_, rfl⟩, ⟨rfl, ?_, rfl⟩, ?_⟩
  · show 2 = distinctPlaceholders settingsSelectQuery
    rw [hsel]
  · show 2 = distinctPlaceholders settingsDeleteQuery
    rw [hdel]
  · show 6 = distinctPlaceholders settingsUpdateQuery
    rw [hupd]
  · intro query args hq
    unfold BuildInsertQuery at hq
    by_cases he : settings.Demo.Enabled = true
    · cases hs : settings.Demo.Started with
      | none => simp [he, hs] at hq
      | some t =>
        simp only [he, hs, if_true, Except.ok.injEq, Prod.mk.injEq] at hq
        obtain ⟨rfl, rfl⟩ := hq
        simp [hdemo, he]
    · simp only [he, if_false, Except.ok.injEq, Prod.mk.injEq] at hq
      obtain ⟨rfl, rfl⟩ := hq
      simp [hins, he]

/-- Witness of C14: the insert of settings whose trial started at instant 1000
has eight arguments for the eight placeholders of its text. -/
theorem queries_keyed_by_composite_witness :
    [SqlArg.text "T1", .text "B1", .text "https://ds.example", .text "Authorization",
        .text "s3cr3t", .bool false, .bool true, .time (some 1000)].length =
      distinctPlaceholders settingsInsertWithDemoQuery :=
  ((queries_keyed_by_composite ⟨"T1", "B1"⟩
      { sampleDemoSettings with Demo := ⟨"T1", true, some 1000⟩ }).2.2.2
    settingsInsertWithDemoQuery _ rfl).2.1

/-- C15 fails on the code: for settings with `Demo.Enabled` and no start time
(`Demo.Started` nil), `BuildInsertQuery` dereferences the nil pointer in
`settings.Demo.Started.IsZero()` and returns nothing. -/
theorem BuildInsertQuery_faults_without_start_time :
    BuildInsertQuery ⟨"T1", "B1"⟩ sampleDemoSettings = .error .nilPointerDereference := by
  rfl

/-- C17: a scanned settings row gives the trial of the row (enabled and
started copied) exactly when demo_detached is false and the enabled and started
columns are both non-null, and the zero trial otherwise; the scanner of the
select query then puts the team of the key into the trial exactly when the
trial is not the zero value. -/
theorem settingsScanner_demo (id : SettingsCompositeKey) (cols : SettingsRow) :
    ∃ scanned selected,
      settingsScanner (.ok cols) = .ok scanned ∧
      (BuildSelectQuery id).2.2 (.ok cols) = .ok selected ∧
      (scanned.Demo ≠ zeroDemo ↔
        (cols.demoDetached = false ∧ cols.enabled ≠ none ∧ cols.started ≠ none)) ∧
      (∀ enabled started, cols.demoDetached = false → cols.enabled = some enabled →
        cols.started = some started →
        scanned.Demo = { TeamID := "", Enabled := enabled, Started := some started }) ∧
      (scanned.Demo ≠ zeroDemo →
        selected = { scanned with Demo := { scanned.Demo with TeamID := id.TeamID } }) ∧
      (scanned.Demo = zeroDemo → selected = scanned) := by
  obtain ⟨address, header, secret, detached, enabled, started⟩ := cols
  cases enabled with
  | none =>
    refine ⟨_, _, rfl, rfl, ?_, ?_, ?_, ?_⟩ <;> simp [zeroDemo]
  | some e =>
    cases started with
    | none =>
      refine ⟨_, _, rfl, rfl, ?_, ?_, ?_, ?_⟩ <;> simp [zeroDemo]
    | some s =>
      cases detached with
      | true =>
        refine ⟨_, _, rfl, rfl, ?_, ?_, ?_, ?_⟩ <;> simp [zeroDemo]
      | false =>
        refine ⟨⟨address, header, secret, false, ⟨"", e, some s⟩⟩,
          ⟨address, header, secret, false, ⟨id.TeamID, e, some s⟩⟩, rfl, ?_, ?_, ?_, ?_, ?_⟩
        · simp [BuildSelectQuery, settingsScanner, zeroDemo]
        · simp [zeroDemo]
        · intro e' s' _ he hs
          simp only [Option.some.injEq] at he hs
          rw [he, hs]
        · intro _
          rfl
        · intro h
          simp [zeroDemo] at h

/-- Witness of C17: the sample row, selected for team T1 and board B1. -/
theorem settingsScanner_demo_witness :
    (BuildSelectQuery ⟨"T1", "B1"⟩).2.2 (.ok sampleRow) =
        .ok ⟨"https://ds.example", "Authorization", "s3cr3t", false,
          ⟨"T1", true, some 1000⟩⟩ ∧
      ∃ scanned selected,
        settingsScanner (.ok sampleRow) = .ok scanned ∧
        (BuildSelectQuery ⟨"T1", "B1"⟩).2.2 (.ok sampleRow) = .ok selected ∧
        (scanned.Demo ≠ zeroDemo ↔
          (sampleRow.demoDetached = false ∧ sampleRow.enabled ≠ none ∧
            sampleRow.started ≠ none)) :=
  ⟨rfl, (settingsScanner_demo ⟨"T1", "B1"⟩ sampleRow).imp
    (fun _ h => h.imp (fun _ h => ⟨h.1, h.2.1, h.2.2.1⟩))⟩


/-! ### Document formats -/

theorem toSet_get_fold (items : List String) (set : GoMap String) (key : String) :
    ((items.foldl (fun set item => set.set item item) set).get key).isSome =
      (decide (key ∈ items) || (set.get key).isSome) := by
  induction items generalizing set with
  | nil => simp
  | cons item rest ih =>
    rw [List.foldl_cons, ih]
    by_cases h : key = item
    · simp [GoMap.set, h]
    · simp [GoMap.set, h]

theorem toSet_get_isSome (items : List String) (key : String) :
    ((toSet items).get key).isSome = decide (key ∈ items) := by
  unfold toSet
  rw [toSet_get_fold]
  simp [GoMap.empty]


theorem formatOf_viewable (rawFormat : RawFormat) (h : "view" ∈ rawFormat.Actions) :
    (formatOf rawFormat).IsViewable = true := by
  simp [Format.IsViewable, formatOf, toSet_get_isSome, h]

theorem addRawFormat_sound (rawFormats : List RawFormat) (formats : GoMap Format)
    (rawFormat : RawFormat) (hmem : rawFormat ∈ rawFormats)
    (h : FormatsSound rawFormats formats) :
    FormatsSound rawFormats (addRawFormat formats rawFormat) := by
  unfold addRawFormat
  by_cases hv : "view" ∈ rawFormat.Actions
  · have hs : ((toSet rawFormat.Actions).get "view").isNone = false := by
      have hsome := toSet_get_isSome rawFormat.Actions "view"
      cases hx : (toSet rawFormat.Actions).get "view" with
      | none => simp [hx, hv] at hsome
      | some v => rfl
    simp only [hs, Bool.false_eq_true, if_false]
    intro key format hget
    by_cases hk : key = rawFormat.Name
    · simp only [GoMap.set, hk, if_true, Option.some.injEq] at hget
      subst hget
      exact ⟨hk, rawFormat, hmem, hv, rfl⟩
    · simp only [GoMap.set, hk, if_false] at hget
      exact h key format hget
  · have hs : ((toSet rawFormat.Actions).get "view").isNone = true := by
      have hsome := toSet_get_isSome rawFormat.Actions "view"
      cases hx : (toSet rawFormat.Actions).get "view" with
      | none => rfl
      | some v => simp [hx, hv] at hsome
    simp only [hs, if_true]
    exact h

theorem foldl_addRawFormat_sound (rawFormats items : List RawFormat)
    (formats : GoMap Format) (hsub : ∀ r ∈ items, r ∈ rawFormats)
    (h : FormatsSound rawFormats formats) :
    FormatsSound rawFormats (items.foldl addRawFormat formats) := by
  induction items generalizing formats with
  | nil => exact h
  | cons item rest ih =>
    rw [List.foldl_cons]
    exact ih _ (fun r hr => hsub r (List.mem_cons_of_mem _ hr))
      (addRawFormat_sound rawFormats formats item (hsub item (List.mem_cons_self _ _)) h)

theorem loadFormats_sound (rawFormats : List RawFormat) :
    FormatsSound rawFormats (loadFormats rawFormats) :=
  foldl_addRawFormat_sound rawFormats rawFormats GoMap.empty (fun _ h => h)
    (fun key format hget => by simp [GoMap.empty] at hget)

theorem NewMapFormatManager_sound (unmarshal : Except GoError (List RawFormat))
    (st : PackageState) (h : CacheSound unmarshal st) :
    CacheSound unmarshal (NewMapFormatManager unmarshal st).2 ∧
      ∀ key format, (NewMapFormatManager unmarshal st).1.1.formats.get key = some format →
        ∃ rawFormats, unmarshal = .ok rawFormats ∧
          FormatsSound rawFormats (NewMapFormatManager unmarshal st).1.1.formats := by
  obtain ⟨done, cache⟩ := st
  cases unmarshal with
  | error err =>
    cases cache with
    | none =>
      cases done <;>
        exact ⟨fun c hc => by simp [NewMapFormatManager] at hc,
          fun key format hget => by simp [NewMapFormatManager, GoMap.empty] at hget⟩
    | some c =>
      obtain ⟨raws, hu, -⟩ := h c rfl
      exact Except.noConfusion hu
  | ok raws =>
    cases cache with
    | none =>
      cases done
      · refine ⟨fun c hc => ?_, fun key format _ => ?_⟩
        · simp only [NewMapFormatManager, Bool.false_eq_true, if_false,
            Option.some.injEq] at hc
          subst hc
          exact ⟨raws, rfl, loadFormats_sound raws⟩
        · exact ⟨raws, rfl, loadFormats_sound raws⟩
      · refine ⟨fun c hc => ?_, fun key format _ => ?_⟩
        · simp [NewMapFormatManager] at hc
        · exact ⟨raws, rfl, loadFormats_sound raws⟩
    | some c =>
      obtain ⟨raws', hu, hs⟩ := h c rfl
      simp only [Except.ok.injEq] at hu
      subst hu
      cases done
      · refine ⟨fun c' hc => ?_, fun key format _ => ?_⟩
        · simp only [NewMapFormatManager, Bool.false_eq_true, if_false,
            Option.some.injEq] at hc
          subst hc
          exact ⟨raws, rfl, loadFormats_sound raws⟩
        · exact ⟨raws, rfl, loadFormats_sound raws⟩
      · refine ⟨fun c' hc => ?_, fun key format _ => ?_⟩
        · simp only [NewMapFormatManager, if_true, Option.some.injEq] at hc
          subst hc
          exact ⟨raws, rfl, hs⟩
        · exact ⟨raws, rfl, hs⟩

theorem stateAfterCalls_sound (unmarshal : Except GoError (List RawFormat)) (n : Nat) :
    CacheSound unmarshal (stateAfterCalls unmarshal n) := by
  induction n with
  | zero => intro c hc; simp [stateAfterCalls, PackageState.initial] at hc
  | succ n ih => exact (NewMapFormatManager_sound unmarshal _ ih).1

theorem managerAfterCalls_sound (unmarshal : Except GoError (List RawFormat)) (n : Nat)
    (key : String) (format : Format)
    (h : (managerAfterCalls unmarshal n).formats.get key = some format) :
    ∃ rawFormats, unmarshal = .ok rawFormats ∧
      key = format.Name ∧
      ∃ rawFormat ∈ rawFormats, "view" ∈ rawFormat.Actions ∧ format = formatOf rawFormat := by
  obtain ⟨raws, hu, hs⟩ :=
    (NewMapFormatManager_sound unmarshal _ (stateAfterCalls_sound unmarshal n)).2 key format h
  obtain ⟨hk, hraw⟩ := hs key format h
  exact ⟨raws, hu, hk, hraw⟩


/-- C18: every entry of `GetAllFormats` of a manager returned by
`NewMapFormatManager`, whatever the decoded format list and however many calls
came before, is viewable, is stored under its own name and is the format of a
raw format that has the action "view"; the format of a raw format without that
action is stored under no key. -/
theorem stored_formats_viewable (unmarshal : Except GoError (List RawFormat)) (n : Nat) :
    (∀ key format,
        (managerAfterCalls unmarshal n).GetAllFormats.get key = some format →
        format.IsViewable = true ∧ key = format.Name ∧
          ∃ rawFormats rawFormat, unmarshal = .ok rawFormats ∧ rawFormat ∈ rawFormats ∧
            "view" ∈ rawFormat.Actions ∧ format = formatOf rawFormat) ∧
    (∀ rawFormat : RawFormat, "view" ∉ rawFormat.Actions →
        ∀ key, (managerAfterCalls unmarshal n).GetAllFormats.get key
          ≠ some (formatOf rawFormat)) := by
  constructor
  · intro key format h
    obtain ⟨raws, hu, hk, raw, hmem, hv, hf⟩ := managerAfterCalls_sound unmarshal n key format h
    exact ⟨hf ▸ formatOf_viewable raw hv, hk, raws, raw, hu, hmem, hv, hf⟩
  · intro rawFormat hv key h
    obtain ⟨raws, hu, hk, raw, hmem, hv', hf⟩ :=
      managerAfterCalls_sound unmarshal n key _ h
    have h1 : (formatOf rawFormat).IsViewable = true := hf ▸ formatOf_viewable raw hv'
    have h2 : (formatOf rawFormat).IsViewable = false := by
      simp [Format.IsViewable, formatOf, toSet_get_isSome, hv]
    rw [h2] at h1
    exact Bool.noConfusion h1

/-- Witness of C18: the entry "docx" of the second manager built from the
sample list. -/
theorem stored_formats_viewable_witness :
    (formatOf ⟨"docx", "word", ["view", "edit"], ["pdf"], ["application/msword"]⟩).IsViewable
        = true ∧
      "docx" =
        (formatOf ⟨"docx", "word", ["view", "edit"], ["pdf"], ["application/msword"]⟩).Name :=
  ⟨((stored_formats_viewable (.ok sampleRawFormats) 1).1 "docx"
      (formatOf ⟨"docx", "word", ["view", "edit"], ["pdf"], ["application/msword"]⟩) rfl).1,
   ((stored_formats_viewable (.ok sampleRawFormats) 1).1 "docx"
      (formatOf ⟨"docx", "word", ["view", "edit"], ["pdf"], ["application/msword"]⟩) rfl).2.1⟩

theorem stringsToLower_idempotent (table : Char → Char) (hI : TableIdempotent table)
    (s : String) : stringsToLower table (stringsToLower table s) = stringsToLower table s := by
  simp only [stringsToLower, List.map_map]
  congr 1
  apply List.map_congr_left
  intro r _
  exact hI r

theorem sampleTable_idempotent : TableIdempotent sampleTable := by
  intro r
  by_cases hr : r.toNat ≤ 127
  · rw [unicodeToLower_of_ascii sampleTable r hr]
    have hrr : r = Char.ofNat r.toNat := (Char.ofNat_toNat r).symm
    generalize r.toNat = n at hr hrr
    subst hrr
    interval_cases n <;> decide
  · have h1 : unicodeToLower sampleTable r = sampleTable r := by
      simp [unicodeToLower, hr]
    rw [h1]
    unfold sampleTable
    split
    · decide
    · split
      · decide
      · exact h1.trans (by simp [sampleTable, *])

/-- C19, as stated, fails: built from a list whose format is named "DOCX", the
manager stores the format under "DOCX", and `GetFormatByName` of that name
looks under "docx" and finds nothing. -/
theorem GetFormatByName_own_name_counterexample :
    ∃ format,
      (managerAfterCalls (.ok upperCaseRawFormats) 0).GetAllFormats.get "DOCX" = some format ∧
      format.Name = "DOCX" ∧
      ((managerAfterCalls (.ok upperCaseRawFormats) 0).GetFormatByName sampleTable
        format.Name).2 = false :=
  ⟨formatOf ⟨"DOCX", "word", ["view", "edit"], [], []⟩, rfl, rfl, rfl⟩

/-- C19, amended: every format stored in the manager whose name is in lower
case is returned, with found = true, by `GetFormatByName` of its own name; and
`GetFormatByName` of a name equals `GetFormatByName` of the lower-cased name. -/
theorem GetFormatByName_lower_case_name (table : Char → Char) (hI : TableIdempotent table)
    (unmarshal : Except GoError (List RawFormat)) (n : Nat) :
    (∀ key format,
        (managerAfterCalls unmarshal n).GetAllFormats.get key = some format →
        stringsToLower table format.Name = format.Name →
        (managerAfterCalls unmarshal n).GetFormatByName table format.Name = (format, true)) ∧
    (∀ name,
        (managerAfterCalls unmarshal n).GetFormatByName table name =
          (managerAfterCalls unmarshal n).GetFormatByName table
            (stringsToLower table name)) := by
  constructor
  · intro key format h hlow
    obtain ⟨raws, hu, hk, -⟩ := managerAfterCalls_sound unmarshal n key format h
    subst hk
    simp only [MapFormatManager.GetAllFormats] at h
    simp [MapFormatManager.GetFormatByName, hlow, h]
  · intro name
    simp only [MapFormatManager.GetFormatByName, stringsToLower_idempotent table hI]

/-- Witness of the amended C19: the format "docx" of the sample list is found
under its own name, and "DOCX" finds what "docx" finds. -/
theorem GetFormatByName_lower_case_name_witness :
    (managerAfterCalls (.ok sampleRawFormats) 0).GetFormatByName sampleTable "docx" =
        (formatOf ⟨"docx", "word", ["view", "edit"], ["pdf"], ["application/msword"]⟩,
          true) ∧
      (managerAfterCalls (.ok sampleRawFormats) 0).GetFormatByName sampleTable "DOCX" =
        (managerAfterCalls (.ok sampleRawFormats) 0).GetFormatByName sampleTable
          (stringsToLower sampleTable "DOCX") :=
  ⟨(GetFormatByName_lower_case_name sampleTable sampleTable_idempotent
      (.ok sampleRawFormats) 0).1 "docx"
      (formatOf ⟨"docx", "word", ["view", "edit"], ["pdf"], ["application/msword"]⟩)
      rfl rfl,
   (GetFormatByName_lower_case_name sampleTable sampleTable_idempotent
      (.ok sampleRawFormats) 0).2 "DOCX"⟩

end Miro
